import Mathlib

/-!
# ExpressPap: the `Verify` component

A shallow embedding of `src/components/Verify.jsx`: the React state of the
component, the polling effect with its `checkStatus` closure, `validateFields`,
`handleVerify` and `canStartNewTransaction`.

Modelling conventions.

* The component state is a record; every `setX` call is a field update.
* An `async` function is split at its `await`: the part before the `fetch`
  and the continuation that receives the outcome of the `fetch`.
* A handler's synchronous block, the re-render it causes and the run of the
  `useEffect` (cleanup, then body, when a dependency changed) form one step.
* `setInterval` returns a timer id; the record keeps the armed timer together
  with the variables its `checkStatus` closure captured.
* Status queries whose `fetch` has not resolved yet are kept in `inFlight`,
  with the closure that issued them; `queriesIssued` counts the `fetch` calls
  to the status endpoint (a history variable, never read by the code).
-/

namespace ExpressPap

/-! ## Data -/

/-- The string values `transactionStatus` takes (`null` is `none`). -/
inductive TxStatus where
  | pending
  | success
  | failed
  | timeout
  | error
deriving DecidableEq, Repr

/-- The `vehicle` object of a verify reply, as rendered by the component. -/
structure Vehicle where
  ownerName : String
  carType : String
  brand : String
  color : String
  registrationDate : String
  contact : String
deriving DecidableEq, Repr

/-- The `errors` object: one optional entry per form field. -/
structure Errors where
  licensePlate : Option String
  phoneNumber : Option String
deriving DecidableEq, Repr

/-- Parsed body of `GET /transaction-status/:id`. -/
structure StatusData where
  status : String
  mpesaReceiptNumber : Option String
deriving DecidableEq, Repr

/-- Outcome of the `fetch` in `checkStatus`: a parsed body, or an exception
(transport failure, or `response.json()` failing to parse). -/
inductive QueryOutcome where
  | snapshot (data : StatusData)
  | failure
deriving DecidableEq, Repr

/-- What `handleVerify` reads from a reply of `POST /verify`:
`response.ok`, and of the body the truthiness of `registered`, `vehicle`,
`transactionId`, `message`. -/
structure VerifyData where
  ok : Bool
  registered : Bool
  vehicle : Option Vehicle
  transactionId : Option String
  message : Option String
deriving DecidableEq, Repr

/-- Outcome of the `fetch` in `handleVerify`. -/
inductive VerifyOutcome where
  | reply (data : VerifyData)
  | failure
deriving DecidableEq, Repr

/-- Body of the `POST /verify` request. -/
structure VerifyRequest where
  licensePlate : String
  phoneNumber : String
deriving DecidableEq, Repr

/-- Variables a `checkStatus` closure captures from the effect run that
created it: the `transactionId` of that render and the effect-local
`pollInterval`. -/
structure Closure where
  transactionId : Option String
  pollInterval : Nat
deriving DecidableEq, Repr

/-- State of the component and of what it has scheduled. -/
structure Component where
  licensePlate : String
  phoneNumber : String
  vehicle : Option Vehicle
  message : String
  loading : Bool
  transactionId : Option String
  transactionStatus : Option TxStatus
  errors : Errors
  pollCount : Nat
  /-- The interval armed by the current effect run, if any. -/
  timer : Option Closure
  /-- Next fresh timer id. -/
  nextTimer : Nat
  /-- Status queries awaiting their reply. -/
  inFlight : List Closure
  /-- The verify request awaiting its reply, if any. -/
  pendingVerify : Option VerifyRequest
  /-- Number of status queries issued so far. -/
  queriesIssued : Nat
deriving DecidableEq, Repr

/-- The `useState` initial values; nothing scheduled. -/
def Component.init : Component :=
  { licensePlate := "", phoneNumber := "", vehicle := none, message := "",
    loading := false, transactionId := none, transactionStatus := none,
    errors := { licensePlate := none, phoneNumber := none }, pollCount := 0,
    timer := none, nextTimer := 1, inFlight := [], pendingVerify := none,
    queriesIssued := 0 }

/-! ## JavaScript helpers -/

/-- Truthiness of a value that is `null`/`undefined` or a string. -/
def truthy : Option String → Bool
  | none => false
  | some t => decide (t ≠ "")

/-- Code points removed by `String.prototype.trim` (WhiteSpace and
LineTerminator of ECMAScript). -/
def isJsWhiteSpace (c : Char) : Bool :=
  let n := c.toNat
  n == 0x09 || n == 0x0A || n == 0x0B || n == 0x0C || n == 0x0D || n == 0x20 ||
  n == 0xA0 || n == 0x1680 || (decide (0x2000 ≤ n) && decide (n ≤ 0x200A)) ||
  n == 0x2028 || n == 0x2029 || n == 0x202F || n == 0x205F || n == 0x3000 ||
  n == 0xFEFF

/-- The method `trim` of a string. -/
def jsTrim (str : String) : String :=
  String.mk ((str.data.dropWhile isJsWhiteSpace).reverse.dropWhile isJsWhiteSpace).reverse

/-- Text a template literal inserts for a value that may be `undefined`. -/
def templateText : Option String → String
  | none => "undefined"
  | some t => t

/-- The operator `a || b` on a possibly missing string and a string. -/
def orElseText (a : Option String) (b : String) : String :=
  match a with
  | some t => if t ≠ "" then t else b
  | none => b

/-! ## The polling effect -/

/-- The call `clearInterval(id)`. -/
def clearInterval (id : Nat) (s : Component) : Component :=
  match s.timer with
  | some c => if c.pollInterval = id then { s with timer := none } else s
  | none => s

/-- The attempt limit written in the `setPollCount` updater. -/
def POLL_LIMIT : Nat := 12

/-- The period passed to `setInterval`, in milliseconds. -/
def POLL_INTERVAL_MS : Nat := 5000

/-- First half of `checkStatus`, up to the `await fetch`: returns at once
when the captured `transactionId` is falsy, otherwise issues a query. -/
def checkStatusIssue (c : Closure) (s : Component) : Component :=
  if truthy c.transactionId = false then s
  else { s with inFlight := s.inFlight ++ [c], queriesIssued := s.queriesIssued + 1 }

/-- The function `checkStatus` of closure `c`, given the outcome `o` of its
`fetch`: the guard on the captured `transactionId`, then the `try` body on a
parsed body or the `catch` block on a failure. -/
def checkStatus (c : Closure) (o : QueryOutcome) (s : Component) : Component :=
  if truthy c.transactionId = false then s
  else
    match o with
    | .failure =>
      { clearInterval c.pollInterval s with
        transactionStatus := some .error,
        message := "Error checking payment status. Please check your M-Pesa messages." }
    | .snapshot data =>
      if data.status = "success" then
        clearInterval c.pollInterval
          { s with
            transactionStatus := some .success,
            message := "✅ Payment successful! Receipt: " ++ templateText data.mpesaReceiptNumber }
      else if data.status = "failed" then
        clearInterval c.pollInterval
          { s with
            transactionStatus := some .failed,
            message := "❌ Payment failed or was cancelled. Please try again." }
      else if data.status = "pending" then
        if s.pollCount ≥ POLL_LIMIT then
          { clearInterval c.pollInterval s with
            transactionStatus := some .timeout,
            message := "Transaction timed out. Please try again or check your M-Pesa messages." }
        else { s with pollCount := s.pollCount + 1 }
      else s

/-- The condition under which the effect body starts polling. -/
def startCondition (s : Component) : Bool :=
  truthy s.transactionId && decide (s.transactionStatus = some .pending)

/-- The `useEffect` with dependencies `[transactionId, transactionStatus]`,
run after a render: `prev` is the state of the previous render. When a
dependency changed the cleanup clears the interval of the previous run, then
the body runs: under `startCondition` it resets `pollCount`, calls
`checkStatus` once and arms a fresh interval. -/
def pollingEffect (prev s : Component) : Component :=
  if prev.transactionId = s.transactionId ∧ prev.transactionStatus = s.transactionStatus then s
  else
    let s1 := { s with timer := none }
    if startCondition s1 then
      let c : Closure := { transactionId := s1.transactionId, pollInterval := s1.nextTimer }
      { checkStatusIssue c { s1 with pollCount := 0 } with
        timer := some c, nextTimer := s1.nextTimer + 1 }
    else s1

/-! ## Validation and `handleVerify` -/

/-- The function `validateFields`: the new `errors` object and whether it
has no key. -/
def validateFields (s : Component) : Component × Bool :=
  let e1 : Option String :=
    if jsTrim s.licensePlate = "" then some "License plate cannot be blank." else none
  let e2 : Option String :=
    if jsTrim s.phoneNumber = "" then some "Phone number cannot be blank." else none
  let newErrors : Errors := { licensePlate := e1, phoneNumber := e2 }
  ({ s with errors := newErrors }, e1.toList.length + e2.toList.length == 0)

/-- The function `handleVerify` up to its `await fetch`. -/
def handleVerifyStart (s : Component) : Component :=
  let r := validateFields s
  if r.2 = false then r.1
  else
    { r.1 with
      loading := true, message := "", vehicle := none,
      transactionStatus := some .pending, transactionId := none,
      pendingVerify := some { licensePlate := s.licensePlate, phoneNumber := s.phoneNumber } }

/-- The function `handleVerify` from the outcome of its `fetch` on. -/
def handleVerifyResume (o : VerifyOutcome) (s : Component) : Component :=
  match o with
  | .reply data =>
    if data.ok && data.registered then
      { s with
        vehicle := data.vehicle, transactionId := data.transactionId,
        message := "Please check your phone to complete the M-Pesa payment.",
        loading := false }
    else
      { s with
        transactionStatus := none,
        message := orElseText data.message "Vehicle not found. Please register.",
        loading := false }
  | .failure =>
    { s with
      transactionStatus := some .error,
      message := "Error verifying vehicle. Please try again.",
      loading := false }

/-- The array literal in `canStartNewTransaction`. -/
def terminalStatuses : List TxStatus := [.success, .failed, .timeout, .error]

/-- The method `includes` of that array, applied to `transactionStatus`. -/
def includesStatus (l : List TxStatus) : Option TxStatus → Bool
  | none => false
  | some st => l.contains st

/-- The constant `canStartNewTransaction` of a render. -/
def canStartNewTransaction (s : Component) : Bool :=
  !s.loading && decide (s.transactionStatus ≠ some .pending) &&
  (!truthy s.transactionId || includesStatus terminalStatuses s.transactionStatus)

/-! ## Events -/

/-- What can happen to a mounted component. -/
inductive Event where
  /-- The `onChange` of the plate input. -/
  | editPlate (value : String)
  /-- The `onChange` of the phone input. -/
  | editPhone (value : String)
  /-- The `onClick` of the button. -/
  | clickVerify
  /-- The `fetch` of `handleVerify` settles. -/
  | verifyReply (o : VerifyOutcome)
  /-- The interval fires. -/
  | tick
  /-- The `fetch` of the in-flight status query number `i` settles. -/
  | statusReply (i : Nat) (o : QueryOutcome)
deriving DecidableEq, Repr

/-- Whether an event can happen: the inputs and the button are disabled
unless `canStartNewTransaction`; a reply needs its request; a tick needs an
armed interval. -/
def enabled (s : Component) : Event → Bool
  | .editPlate _ => canStartNewTransaction s
  | .editPhone _ => canStartNewTransaction s
  | .clickVerify => canStartNewTransaction s
  | .verifyReply _ => s.pendingVerify.isSome
  | .tick => s.timer.isSome
  | .statusReply i _ => decide (i < s.inFlight.length)

/-- The handler of an event, before the re-render. -/
def handle (s : Component) : Event → Component
  | .editPlate v => { s with licensePlate := v }
  | .editPhone v => { s with phoneNumber := v }
  | .clickVerify => handleVerifyStart s
  | .verifyReply o => handleVerifyResume o { s with pendingVerify := none }
  | .tick =>
    match s.timer with
    | some c => checkStatusIssue c s
    | none => s
  | .statusReply i o =>
    match s.inFlight.get? i with
    | some c => checkStatus c o { s with inFlight := s.inFlight.eraseIdx i }
    | none => s

/-- One step: the handler, then the effect of the re-render. -/
def step (s : Component) (e : Event) : Component :=
  pollingEffect s (handle s e)

/-- States the component can be in. -/
inductive Reachable : Component → Prop where
  | init : Reachable Component.init
  | step {s : Component} (e : Event) : Reachable s → enabled s e = true → Reachable (step s e)

/-- Runs a list of events, refusing one that is not enabled. -/
def runEvents : Component → List Event → Option Component
  | s, [] => some s
  | s, e :: es => if enabled s e then runEvents (step s e) es else none

/-- Handles a list of query outcomes, in order, with `checkStatus` of one
closure. -/
def handleAll (c : Closure) (os : List QueryOutcome) (s : Component) : Component :=
  os.foldl (fun acc o => checkStatus c o acc) s

/-- A body of the Status Service with status `"pending"`. -/
def pendingSnapshot : QueryOutcome := .snapshot { status := "pending", mpesaReceiptNumber := none }

/-- Whether a status is one of the four terminal ones. -/
def isTerminal (st : Option TxStatus) : Bool := includesStatus terminalStatuses st

/-- Whether an outcome is a parsed body with status `"pending"`. -/
def QueryOutcome.isPending : QueryOutcome → Bool
  | .snapshot data => decide (data.status = "pending")
  | .failure => false

/-- Outcomes the Status Service declares: a body whose status is one of
`"success"`, `"failed"`, `"pending"`, or a failure of the query. -/
def QueryOutcome.declared : QueryOutcome → Bool
  | .snapshot data =>
    decide (data.status = "success") || decide (data.status = "failed") ||
    decide (data.status = "pending")
  | .failure => true

/-- Time, in milliseconds after the effect started polling, at which query
number `k` (from 1) is issued: the first at once, then one per period. -/
def issueTimeMs (k : Nat) : Nat := (k - 1) * POLL_INTERVAL_MS

/-- Whether an event is the reply to a status query. -/
def Event.isReply : Event → Bool
  | .statusReply _ _ => true
  | _ => false

/-- Whether an event is a tick of the interval. -/
def Event.isTick : Event → Bool
  | .tick => true
  | _ => false

/-- The events of polling: a tick of the interval, or the reply to a status
query with a declared outcome. -/
def pollEvent : Event → Bool
  | .tick => true
  | .statusReply _ o => o.declared
  | _ => false

/-- The events of polling with replies in the order of the queries: a reply
answers the oldest query in flight. -/
def fifoEvent : Event → Bool
  | .tick => true
  | .statusReply i o => decide (i = 0) && o.declared
  | _ => false

/-- The events of polling with replies in the order of the queries, every
reply a body with status `"pending"`. -/
def pendingFifoEvent : Event → Bool
  | .tick => true
  | .statusReply i o => decide (i = 0) && o.isPending
  | _ => false

/-- Number of replies to status queries among the events. -/
def countReplies (es : List Event) : Nat := es.countP Event.isReply

/-- Number of ticks of the interval among the events. -/
def countTicks (es : List Event) : Nat := es.countP Event.isTick

/-- Whether, in the run of `es` from `s`, every tick of the interval finds no
query of closure `c` in flight: each reply came before the next tick. -/
def promptRun (c : Closure) : Component → List Event → Bool
  | _, [] => true
  | s, e :: es =>
    (!e.isTick || decide (s.inFlight.count c = 0)) && promptRun c (step s e) es

/-- A state in which the effect has just started polling with closure `c`:
the interval is armed for a set `transactionId`, the status is pending,
`pollCount` is 0, and the query issued at once is the newest in flight,
behind the queries of earlier transactions that are still in flight. -/
def Attached (c : Closure) (s : Component) : Prop :=
  s.timer = some c ∧ truthy c.transactionId = true ∧
  s.transactionStatus = some .pending ∧ s.pollCount = 0 ∧
  ∃ earlier, s.inFlight = earlier ++ [c]

/-- What polling keeps true from an attached state on: the queries in flight
were issued for a set `transactionId`, an armed interval is that of `c`, the
status is pending or it is terminal with no interval armed, and `pollCount`
is at most 12. -/
def PollInv (c : Closure) (s : Component) : Prop :=
  (∀ x ∈ s.inFlight, truthy x.transactionId = true) ∧
  (∀ d, s.timer = some d → d = c) ∧ truthy c.transactionId = true ∧
  (s.transactionStatus = some .pending ∨
    (isTerminal s.transactionStatus = true ∧ s.timer = none)) ∧
  s.pollCount ≤ 12

/-- The function `handleVerify` run to its end on outcome `o` of its
request, with no other event in between. -/
def handleVerify (o : VerifyOutcome) (s : Component) : Component :=
  step (step s .clickVerify) (.verifyReply o)

/-- What holds of every reachable state: while the verify request is out
(`loading`) no `transactionId` is set and the status is not `null`; a `null`
status comes with no `transactionId`; an interval is armed only for a set
`transactionId` under status pending. -/
def Inv (s : Component) : Prop :=
  (s.loading = true → s.transactionId = none ∧ s.transactionStatus ≠ none) ∧
  (s.pendingVerify.isSome = true → s.loading = true) ∧
  (s.transactionStatus = none → s.transactionId = none) ∧
  (s.timer.isSome = true →
    truthy s.transactionId = true ∧ s.transactionStatus = some .pending)

/-! ## Sample runs -/

/-- A verify reply that finds the vehicle and starts transaction `T1`. -/
def demoFound : VerifyOutcome :=
  .reply { ok := true, registered := true, vehicle := none,
           transactionId := some "T1", message := none }

/-- Fill the form, click, and receive `demoFound`. -/
def demoStart : List Event :=
  [.editPlate "KAA 123A", .editPhone "0700000000", .clickVerify, .verifyReply demoFound]

/-- The state after `demoStart`: pending, polling armed, first query in flight. -/
def demoFresh : Component := (runEvents Component.init demoStart).getD Component.init

/-- The closure of the effect run that `demoStart` triggers. -/
def demoClosure : Closure := { transactionId := some "T1", pollInterval := 1 }

/-- A second query is issued before the first reply; the second reply says
`"failed"`. The reply to the first query is still outstanding. -/
def demoLate : List Event :=
  demoStart ++ [.tick, .statusReply 1 (.snapshot { status := "failed", mpesaReceiptNumber := none })]

/-- The state after `demoLate`. -/
def demoLateState : Component := (runEvents Component.init demoLate).getD Component.init

/-- After `demoStart` the interval fires thirteen times while no reply has
arrived yet. -/
def demoSlow : List Event := demoStart ++ List.replicate 13 .tick

/-- The state after `demoSlow`. -/
def demoSlowState : Component := (runEvents Component.init demoSlow).getD Component.init

/-- After `demoStart` every reply says `"pending"` and comes before the next
tick: twelve rounds of reply and tick, then the thirteenth reply. -/
def demoPrompt : List Event :=
  (List.replicate 12 [Event.statusReply 0 pendingSnapshot, Event.tick]).flatten ++
    [Event.statusReply 0 pendingSnapshot]

/-- The state after `demoPrompt`, run from `demoFresh`. -/
def demoPromptState : Component := (runEvents demoFresh demoPrompt).getD Component.init

/-- A verify reply that finds the vehicle and starts transaction `T2`. -/
def demoFound2 : VerifyOutcome :=
  .reply { ok := true, registered := true, vehicle := none,
           transactionId := some "T2", message := none }

/-- After `demoLate` a second attempt is started while the first query of
`T1` is still in flight. -/
def demoSecond : List Event := demoLate ++ [.clickVerify, .verifyReply demoFound2]

/-- The state after `demoSecond`. -/
def demoSecondState : Component := (runEvents Component.init demoSecond).getD Component.init

/-- The closure of the effect run that `demoSecond` triggers. -/
def demoClosure2 : Closure := { transactionId := some "T2", pollInterval := 2 }

/-- From `demoSecondState` the interval fires twelve times before any reply;
then the fourteen replies, all `"pending"`, come in the order of the queries. -/
def demoSlowFifo : List Event :=
  List.replicate 12 Event.tick ++ List.replicate 14 (Event.statusReply 0 pendingSnapshot)

/-- The state after `demoSlowFifo`, run from `demoSecondState`. -/
def demoSlowFifoState : Component :=
  (runEvents demoSecondState demoSlowFifo).getD Component.init

/-- From `demoSecondState` every reply says `"pending"`, comes in the order
of the queries and before the next tick: the reply to the query of `T1`, the
reply to the first query of `T2`, then eleven rounds of tick and reply. -/
def demoStale : List Event :=
  [Event.statusReply 0 pendingSnapshot, Event.statusReply 0 pendingSnapshot] ++
    (List.replicate 11 [Event.tick, Event.statusReply 0 pendingSnapshot]).flatten

/-- The state after `demoStale`, run from `demoSecondState`. -/
def demoStaleState : Component := (runEvents demoSecondState demoStale).getD Component.init

/-- The form filled in, nothing sent yet. -/
def demoFilled : Component :=
  (runEvents Component.init [.editPlate "KAA 123A", .editPhone "0700000000"]).getD Component.init

/-- A verify reply that does not find the vehicle and has an empty message. -/
def demoNotFound : VerifyData :=
  { ok := true, registered := false, vehicle := none, transactionId := none, message := some "" }

/-! ## Field lemmas -/

@[simp] theorem clearInterval_transactionStatus (id : Nat) (s : Component) :
    (clearInterval id s).transactionStatus = s.transactionStatus := by
  unfold clearInterval; split <;> [split; skip] <;> rfl

@[simp] theorem clearInterval_pollCount (id : Nat) (s : Component) :
    (clearInterval id s).pollCount = s.pollCount := by
  unfold clearInterval; split <;> [split; skip] <;> rfl

@[simp] theorem clearInterval_message (id : Nat) (s : Component) :
    (clearInterval id s).message = s.message := by
  unfold clearInterval; split <;> [split; skip] <;> rfl

@[simp] theorem clearInterval_transactionId (id : Nat) (s : Component) :
    (clearInterval id s).transactionId = s.transactionId := by
  unfold clearInterval; split <;> [split; skip] <;> rfl

@[simp] theorem clearInterval_loading (id : Nat) (s : Component) :
    (clearInterval id s).loading = s.loading := by
  unfold clearInterval; split <;> [split; skip] <;> rfl

@[simp] theorem clearInterval_pendingVerify (id : Nat) (s : Component) :
    (clearInterval id s).pendingVerify = s.pendingVerify := by
  unfold clearInterval; split <;> [split; skip] <;> rfl

@[simp] theorem clearInterval_inFlight (id : Nat) (s : Component) :
    (clearInterval id s).inFlight = s.inFlight := by
  unfold clearInterval; split <;> [split; skip] <;> rfl

@[simp] theorem clearInterval_queriesIssued (id : Nat) (s : Component) :
    (clearInterval id s).queriesIssued = s.queriesIssued := by
  unfold clearInterval; split <;> [split; skip] <;> rfl

@[simp] theorem clearInterval_nextTimer (id : Nat) (s : Component) :
    (clearInterval id s).nextTimer = s.nextTimer := by
  unfold clearInterval; split <;> [split; skip] <;> rfl

/-- After `clearInterval` the timer is the old one or none. -/
theorem clearInterval_timer (id : Nat) (s : Component) :
    (clearInterval id s).timer = s.timer ∨ (clearInterval id s).timer = none := by
  unfold clearInterval; split <;> [split; skip] <;> simp

/-- After `clearInterval id` no timer with that id is armed. -/
theorem clearInterval_cleared (id : Nat) (s : Component) (c : Closure)
    (h : (clearInterval id s).timer = some c) : c.pollInterval ≠ id := by
  unfold clearInterval at h
  split at h
  · split at h
    · simp at h
    · rename_i c0 hc0 hne
      rw [hc0] at h
      cases h
      exact hne
  · rename_i hn
    rw [hn] at h
    cases h


/-! ## What `checkStatus` does -/

/-- With no `transactionId` captured, `checkStatus` returns at once. -/
theorem checkStatus_of_not_truthy (c : Closure) (o : QueryOutcome) (s : Component)
    (hc : truthy c.transactionId = false) : checkStatus c o s = s := by
  simp [checkStatus, hc]

/-- The `catch` block. -/
theorem checkStatus_failure_eq (c : Closure) (s : Component)
    (hc : truthy c.transactionId = true) :
    checkStatus c .failure s =
      { clearInterval c.pollInterval s with
        transactionStatus := some .error,
        message := "Error checking payment status. Please check your M-Pesa messages." } := by
  simp [checkStatus, hc]

/-- The branch `data.status === 'success'`. -/
theorem checkStatus_success_eq (c : Closure) (s : Component) (data : StatusData)
    (hc : truthy c.transactionId = true) (hd : data.status = "success") :
    checkStatus c (.snapshot data) s =
      clearInterval c.pollInterval
        { s with
          transactionStatus := some .success,
          message := "✅ Payment successful! Receipt: " ++ templateText data.mpesaReceiptNumber } := by
  simp [checkStatus, hc, hd]

/-- The branch `data.status === 'failed'`. -/
theorem checkStatus_failed_eq (c : Closure) (s : Component) (data : StatusData)
    (hc : truthy c.transactionId = true) (hd : data.status = "failed") :
    checkStatus c (.snapshot data) s =
      clearInterval c.pollInterval
        { s with
          transactionStatus := some .failed,
          message := "❌ Payment failed or was cancelled. Please try again." } := by
  simp [checkStatus, hc, hd]

/-- The branch `data.status === 'pending'` below the limit. -/
theorem checkStatus_pending_lt_eq (c : Closure) (s : Component) (data : StatusData)
    (hc : truthy c.transactionId = true) (hd : data.status = "pending")
    (hn : s.pollCount < 12) :
    checkStatus c (.snapshot data) s = { s with pollCount := s.pollCount + 1 } := by
  simp [checkStatus, hc, hd, POLL_LIMIT, hn]

/-- The branch `data.status === 'pending'` at the limit. -/
theorem checkStatus_pending_ge_eq (c : Closure) (s : Component) (data : StatusData)
    (hc : truthy c.transactionId = true) (hd : data.status = "pending")
    (hn : 12 ≤ s.pollCount) :
    checkStatus c (.snapshot data) s =
      { clearInterval c.pollInterval s with
        transactionStatus := some .timeout,
        message := "Transaction timed out. Please try again or check your M-Pesa messages." } := by
  simp [checkStatus, hc, hd, POLL_LIMIT, hn]

/-- A body whose status is none of the three strings changes nothing. -/
theorem checkStatus_other_eq (c : Closure) (s : Component) (data : StatusData)
    (h1 : data.status ≠ "success") (h2 : data.status ≠ "failed")
    (h3 : data.status ≠ "pending") :
    checkStatus c (.snapshot data) s = s := by
  simp [checkStatus, h1, h2, h3]

/-- The status after `checkStatus` is the old one or a terminal one. -/
theorem checkStatus_status (c : Closure) (o : QueryOutcome) (s : Component) :
    (checkStatus c o s).transactionStatus = s.transactionStatus ∨
    isTerminal (checkStatus c o s).transactionStatus = true := by
  unfold checkStatus
  split
  · exact Or.inl rfl
  · split
    · right; simp [isTerminal, includesStatus, terminalStatuses]
    · split
      · right; simp [isTerminal, includesStatus, terminalStatuses]
      · split
        · right; simp [isTerminal, includesStatus, terminalStatuses]
        · split
          · split
            · right; simp [isTerminal, includesStatus, terminalStatuses]
            · exact Or.inl rfl
          · exact Or.inl rfl

/-- The counter after `checkStatus`: one more exactly when a `"pending"`
body is handled below the limit by a closure that has a `transactionId`. -/
theorem checkStatus_pollCount (c : Closure) (o : QueryOutcome) (s : Component) :
    (checkStatus c o s).pollCount =
      s.pollCount +
        (if truthy c.transactionId = true ∧ o.isPending = true ∧ s.pollCount < 12
         then 1 else 0) := by
  cases htr : truthy c.transactionId
  · simp [checkStatus, htr]
  · cases o with
    | failure => simp [checkStatus, htr, QueryOutcome.isPending]
    | snapshot data =>
      by_cases h1 : data.status = "success"
      · simp [checkStatus, htr, QueryOutcome.isPending, h1]
      · by_cases h2 : data.status = "failed"
        · simp [checkStatus, htr, QueryOutcome.isPending, h2]
        · by_cases h3 : data.status = "pending"
          · by_cases hn : s.pollCount < 12
            · have hn1 : ¬ 12 ≤ s.pollCount := Nat.not_le.mpr hn
              simp [checkStatus, htr, QueryOutcome.isPending, h3, POLL_LIMIT, hn, hn1]
            · have hn2 : 12 ≤ s.pollCount := Nat.le_of_not_lt hn
              simp [checkStatus, htr, QueryOutcome.isPending, h3, POLL_LIMIT, hn, hn2]
          · simp [checkStatus, htr, QueryOutcome.isPending, h1, h2, h3]

/-- The fields `checkStatus` never writes. -/
theorem checkStatus_frame (c : Closure) (o : QueryOutcome) (s : Component) :
    (checkStatus c o s).transactionId = s.transactionId ∧
    (checkStatus c o s).loading = s.loading ∧
    (checkStatus c o s).pendingVerify = s.pendingVerify ∧
    (checkStatus c o s).inFlight = s.inFlight ∧
    (checkStatus c o s).queriesIssued = s.queriesIssued := by
  unfold checkStatus
  split
  · simp
  · split
    · simp
    · split
      · simp
      · split
        · simp
        · split
          · split <;> simp
          · simp

/-- The timer after `checkStatus` is the old one or none. -/
theorem checkStatus_timer (c : Closure) (o : QueryOutcome) (s : Component) :
    (checkStatus c o s).timer = s.timer ∨ (checkStatus c o s).timer = none := by
  unfold checkStatus
  split
  · exact Or.inl rfl
  · split
    · exact clearInterval_timer c.pollInterval s
    · split
      · exact clearInterval_timer c.pollInterval _
      · split
        · exact clearInterval_timer c.pollInterval _
        · split
          · split
            · exact clearInterval_timer c.pollInterval s
            · exact Or.inl rfl
          · exact Or.inl rfl


/-- The function `checkStatus` takes no timer id. -/
theorem checkStatus_nextTimer (c : Closure) (o : QueryOutcome) (s : Component) :
    (checkStatus c o s).nextTimer = s.nextTimer := by
  unfold checkStatus
  split
  · rfl
  · split
    · simp
    · split
      · simp
      · split
        · simp
        · split
          · split <;> simp
          · rfl

/-! ## What the effect does -/

/-- The effect never writes these fields. -/
theorem pollingEffect_frame (prev s : Component) :
    (pollingEffect prev s).transactionStatus = s.transactionStatus ∧
    (pollingEffect prev s).transactionId = s.transactionId ∧
    (pollingEffect prev s).loading = s.loading ∧
    (pollingEffect prev s).pendingVerify = s.pendingVerify ∧
    (pollingEffect prev s).message = s.message := by
  unfold pollingEffect checkStatusIssue
  split
  · simp
  · dsimp only
    split
    · split <;> simp
    · simp

/-- With unchanged dependencies the effect does not run. -/
theorem pollingEffect_same (prev s : Component)
    (h1 : prev.transactionId = s.transactionId)
    (h2 : prev.transactionStatus = s.transactionStatus) : pollingEffect prev s = s := by
  simp [pollingEffect, h1, h2]

/-- When the status changed to one that is not pending, no interval is
armed after the effect. -/
theorem pollingEffect_disarms (prev s : Component)
    (hch : prev.transactionStatus ≠ s.transactionStatus)
    (hnp : s.transactionStatus ≠ some .pending) :
    (pollingEffect prev s).timer = none ∧
    (pollingEffect prev s).pollCount = s.pollCount ∧
    (pollingEffect prev s).inFlight = s.inFlight ∧
    (pollingEffect prev s).queriesIssued = s.queriesIssued := by
  simp [pollingEffect, hch, startCondition, hnp]

/-- The effect leaves the timer alone, clears it, or arms a new one with
the counter reset; it arms only under the start condition. -/
theorem pollingEffect_timer (prev s : Component) :
    (pollingEffect prev s).timer = s.timer ∨ (pollingEffect prev s).timer = none ∨
    ((pollingEffect prev s).pollCount = 0 ∧ startCondition s = true ∧
      (pollingEffect prev s).timer =
        some { transactionId := s.transactionId, pollInterval := s.nextTimer }) := by
  unfold pollingEffect
  split
  · exact Or.inl rfl
  · dsimp only
    split
    · rename_i hsc
      right; right
      refine ⟨?_, ?_, rfl⟩
      · unfold checkStatusIssue
        split <;> rfl
      · simpa [startCondition] using hsc
    · right; left; rfl


/-- The effect takes a timer id only when it starts polling, and then the
counter is 0 and the interval armed. -/
theorem pollingEffect_arms (prev s : Component)
    (h : (pollingEffect prev s).nextTimer ≠ s.nextTimer) :
    (pollingEffect prev s).pollCount = 0 ∧ startCondition s = true ∧
    (pollingEffect prev s).timer.isSome = true := by
  unfold pollingEffect at h ⊢
  split
  · rename_i hd
    simp only [hd, and_self, if_true] at h
    exact absurd rfl h
  · rename_i hd
    simp only [hd, if_false] at h
    by_cases hsc : startCondition { s with timer := none } = true
    · simp only [hsc, if_true]
      refine ⟨?_, by simpa [startCondition] using hsc, rfl⟩
      unfold checkStatusIssue
      split <;> rfl
    · simp only [hsc, if_false] at h
      exact absurd rfl h

/-! ## Reachable states -/

/-- A terminal status is not `null`. -/
theorem ne_none_of_isTerminal (st : Option TxStatus) (h : isTerminal st = true) : st ≠ none := by
  intro hn
  subst hn
  simp [isTerminal, includesStatus] at h

/-- A terminal status is not pending. -/
theorem ne_pending_of_isTerminal (st : Option TxStatus) (h : isTerminal st = true) :
    st ≠ some .pending := by
  intro hn
  subst hn
  simp [isTerminal, includesStatus, terminalStatuses] at h

/-- The timer part of the invariant survives the effect, when the handler
left the timer alone or cleared it. -/
theorem timer_inv_effect (prev x : Component)
    (hprev : prev.timer.isSome = true →
      truthy prev.transactionId = true ∧ prev.transactionStatus = some .pending)
    (ht : x.timer = prev.timer ∨ x.timer = none) :
    (pollingEffect prev x).timer.isSome = true →
      truthy (pollingEffect prev x).transactionId = true ∧
      (pollingEffect prev x).transactionStatus = some .pending := by
  intro h
  obtain ⟨f1, f2, -, -, -⟩ := pollingEffect_frame prev x
  rw [f1, f2]
  by_cases hd : prev.transactionId = x.transactionId ∧ prev.transactionStatus = x.transactionStatus
  · rw [pollingEffect_same prev x hd.1 hd.2] at h
    rcases ht with ht | ht
    · rw [ht] at h
      rw [← hd.1, ← hd.2]
      exact hprev h
    · rw [ht] at h
      simp at h
  · by_cases hsc : startCondition x = true
    · simpa [startCondition] using hsc
    · exfalso
      have hsc1 : startCondition { x with timer := none } = false := by
        simpa [startCondition] using hsc
      simp [pollingEffect, hd, hsc1] at h

/-- The effect keeps the first three parts of the invariant. -/
theorem inv_effect (prev x : Component)
    (h1 : x.loading = true → x.transactionId = none ∧ x.transactionStatus ≠ none)
    (h2 : x.pendingVerify.isSome = true → x.loading = true)
    (h3 : x.transactionStatus = none → x.transactionId = none)
    (hprev : prev.timer.isSome = true →
      truthy prev.transactionId = true ∧ prev.transactionStatus = some .pending)
    (ht : x.timer = prev.timer ∨ x.timer = none) : Inv (pollingEffect prev x) := by
  refine ⟨?_, ?_, ?_, timer_inv_effect prev x hprev ht⟩
  all_goals obtain ⟨f1, f2, f3, f4, -⟩ := pollingEffect_frame prev x
  · rw [f1, f2, f3]; exact h1
  · rw [f3, f4]; exact h2
  · rw [f1, f2]; exact h3

/-- The function `handleVerify` on a form that fails validation. -/
theorem handleVerifyStart_invalid (s : Component) (h : (validateFields s).2 = false) :
    handleVerifyStart s = { s with errors := (validateFields s).1.errors } := by
  unfold handleVerifyStart
  simp only [h, if_true]
  rfl

/-- The function `handleVerify`, up to the request, on a valid form. -/
theorem handleVerifyStart_valid (s : Component) (h : (validateFields s).2 = true) :
    handleVerifyStart s =
      { s with
        errors := (validateFields s).1.errors,
        loading := true, message := "", vehicle := none,
        transactionStatus := some .pending, transactionId := none,
        pendingVerify := some { licensePlate := s.licensePlate, phoneNumber := s.phoneNumber } } := by
  unfold handleVerifyStart
  simp only [h, Bool.true_eq_false, if_false]
  rfl

/-- The invariant holds initially. -/
theorem inv_init : Inv Component.init := by
  simp [Inv, Component.init]

/-- Every enabled step keeps the invariant. -/
theorem inv_step (s : Component) (e : Event) (hi : Inv s) (he : enabled s e = true) :
    Inv (step s e) := by
  obtain ⟨i1, i2, i3, i4⟩ := hi
  unfold step
  cases e with
  | editPlate v => exact inv_effect s _ i1 i2 i3 i4 (Or.inl rfl)
  | editPhone v => exact inv_effect s _ i1 i2 i3 i4 (Or.inl rfl)
  | clickVerify =>
    simp only [handle]
    cases hv : (validateFields s).2
    · rw [handleVerifyStart_invalid s hv]
      exact inv_effect s _ i1 i2 i3 i4 (Or.inl rfl)
    · rw [handleVerifyStart_valid s hv]
      refine inv_effect s _ ?_ ?_ ?_ i4 ?_
      · intro _; simp
      · intro _; rfl
      · intro h; simp at h
      · exact Or.inl rfl
  | verifyReply o =>
    have hl : s.loading = true := i2 (by simpa [enabled] using he)
    obtain ⟨htid, hst⟩ := i1 hl
    cases o with
    | failure =>
      refine inv_effect s _ ?_ ?_ ?_ i4 ?_
      · intro h; simp [handle, handleVerifyResume] at h
      · intro h; simp [handle, handleVerifyResume] at h
      · intro h; simp [handle, handleVerifyResume] at h
      · exact Or.inl rfl
    | reply data =>
      by_cases hf : (data.ok && data.registered) = true
      · refine inv_effect s _ ?_ ?_ ?_ i4 ?_
        · intro h; simp [handle, handleVerifyResume, hf] at h
        · intro h; simp [handle, handleVerifyResume, hf] at h
        · intro h
          simp only [handle, handleVerifyResume, hf, if_true] at h
          exact absurd h hst
        · simp [handle, handleVerifyResume, hf]
      · refine inv_effect s _ ?_ ?_ ?_ i4 ?_
        · intro h; simp [handle, handleVerifyResume, hf] at h
        · intro h; simp [handle, handleVerifyResume, hf] at h
        · intro _
          simp only [handle, handleVerifyResume, hf]
          exact htid
        · simp [handle, handleVerifyResume, hf]
  | tick =>
    have hx : ∀ c, (checkStatusIssue c s).loading = s.loading ∧
        (checkStatusIssue c s).transactionId = s.transactionId ∧
        (checkStatusIssue c s).transactionStatus = s.transactionStatus ∧
        (checkStatusIssue c s).pendingVerify = s.pendingVerify ∧
        (checkStatusIssue c s).timer = s.timer := by
      intro c; unfold checkStatusIssue; split <;> simp
    simp only [handle]
    split
    · rename_i c _
      obtain ⟨x1, x2, x3, x4, x5⟩ := hx c
      refine inv_effect s _ ?_ ?_ ?_ i4 (Or.inl x5)
      · rw [x1, x2, x3]; exact i1
      · rw [x1, x4]; exact i2
      · rw [x2, x3]; exact i3
    · exact inv_effect s _ i1 i2 i3 i4 (Or.inl rfl)
  | statusReply i o =>
    simp only [handle]
    split
    · rename_i c _
      have fr := checkStatus_frame c o { s with inFlight := s.inFlight.eraseIdx i }
      have x1 : (checkStatus c o { s with inFlight := s.inFlight.eraseIdx i }).transactionId
          = s.transactionId := fr.1
      have x2 : (checkStatus c o { s with inFlight := s.inFlight.eraseIdx i }).loading
          = s.loading := fr.2.1
      have x3 : (checkStatus c o { s with inFlight := s.inFlight.eraseIdx i }).pendingVerify
          = s.pendingVerify := fr.2.2.1
      have x4 : (checkStatus c o { s with inFlight := s.inFlight.eraseIdx i }).transactionStatus
            = s.transactionStatus ∨
          isTerminal
            (checkStatus c o { s with inFlight := s.inFlight.eraseIdx i }).transactionStatus
            = true := checkStatus_status c o _
      have x5 : (checkStatus c o { s with inFlight := s.inFlight.eraseIdx i }).timer = s.timer ∨
          (checkStatus c o { s with inFlight := s.inFlight.eraseIdx i }).timer = none :=
        checkStatus_timer c o _
      clear fr
      generalize checkStatus c o { s with inFlight := s.inFlight.eraseIdx i } = y at x1 x2 x3 x4 x5 ⊢
      refine inv_effect s y ?_ ?_ ?_ i4 x5
      · rw [x1, x2]
        intro h
        refine ⟨(i1 h).1, ?_⟩
        rcases x4 with x4 | x4
        · rw [x4]; exact (i1 h).2
        · exact ne_none_of_isTerminal _ x4
      · rw [x2, x3]; exact i2
      · rw [x1]
        intro h
        rcases x4 with x4 | x4
        · rw [x4] at h; exact i3 h
        · exact absurd h (ne_none_of_isTerminal _ x4)
    · exact inv_effect s _ i1 i2 i3 i4 (Or.inl rfl)

/-- The invariant holds of every reachable state. -/
theorem inv_of_reachable (s : Component) (h : Reachable s) : Inv s := by
  induction h with
  | init => exact inv_init
  | step e _ he ih => exact inv_step _ e ih he

/-- A run of enabled events from a reachable state ends in one. -/
theorem reachable_of_runEvents (es : List Event) (s t : Component) (hs : Reachable s)
    (h : runEvents s es = some t) : Reachable t := by
  induction es generalizing s with
  | nil =>
    simp only [runEvents, Option.some.injEq] at h
    exact h ▸ hs
  | cons e es ih =>
    simp only [runEvents] at h
    split at h
    · rename_i he
      exact ih (step s e) (Reachable.step e hs he) h
    · cases h


/-! ## Sequences of replies -/

/-- Handling a concatenation of outcomes. -/
theorem handleAll_append (c : Closure) (l1 l2 : List QueryOutcome) (s : Component) :
    handleAll c (l1 ++ l2) s = handleAll c l2 (handleAll c l1 s) := by
  simp [handleAll, List.foldl_append]

/-- An outcome that is pending is a body with status `"pending"`. -/
theorem exists_data_of_isPending (o : QueryOutcome) (h : o.isPending = true) :
    ∃ data, o = .snapshot data ∧ data.status = "pending" := by
  cases o with
  | failure => simp [QueryOutcome.isPending] at h
  | snapshot data => exact ⟨data, rfl, by simpa [QueryOutcome.isPending] using h⟩

/-- While the counter stays within the limit, pending bodies only count. -/
theorem handleAll_pending_below (c : Closure) (hc : truthy c.transactionId = true)
    (os : List QueryOutcome) (s : Component) (hp : ∀ o ∈ os, o.isPending = true)
    (hn : s.pollCount + os.length ≤ 12) :
    handleAll c os s = { s with pollCount := s.pollCount + os.length } := by
  induction os generalizing s with
  | nil => rfl
  | cons o os ih =>
    obtain ⟨data, rfl, hd⟩ := exists_data_of_isPending o (hp o (List.mem_cons_self _ _))
    have hlt : s.pollCount < 12 := by simp only [List.length_cons] at hn; omega
    have h1 : handleAll c (.snapshot data :: os) s
        = handleAll c os (checkStatus c (.snapshot data) s) := rfl
    rw [h1, checkStatus_pending_lt_eq c s data hc hd hlt,
      ih _ (fun o ho => hp o (List.mem_cons_of_mem _ ho))
        (by simp only [List.length_cons] at hn; simp only []; omega)]
    simp only [List.length_cons]
    congr 1
    omega

/-- One reply handled under status pending: the counter and whether the
status became `timeout`. -/
theorem checkStatus_pending_step (c : Closure) (o : QueryOutcome) (s : Component)
    (hc : truthy c.transactionId = true) (hs : s.transactionStatus = some .pending) :
    (checkStatus c o s).pollCount +
        (if (checkStatus c o s).transactionStatus = some .timeout then 1 else 0) =
      s.pollCount + (if o.isPending = true then 1 else 0) := by
  cases o with
  | failure => simp [checkStatus_failure_eq c s hc, QueryOutcome.isPending]
  | snapshot data =>
    by_cases h1 : data.status = "success"
    · simp [checkStatus_success_eq c s data hc h1, QueryOutcome.isPending, h1]
    · by_cases h2 : data.status = "failed"
      · simp [checkStatus_failed_eq c s data hc h2, QueryOutcome.isPending, h2]
      · by_cases h3 : data.status = "pending"
        · by_cases hn : s.pollCount < 12
          · simp [checkStatus_pending_lt_eq c s data hc h3 hn, QueryOutcome.isPending, h3, hs]
          · have hn2 : 12 ≤ s.pollCount := Nat.le_of_not_lt hn
            simp [checkStatus_pending_ge_eq c s data hc h3 hn2, QueryOutcome.isPending, h3]
        · simp [checkStatus_other_eq c s data h1 h2 h3, QueryOutcome.isPending, h3, hs]

/-- Over a run that is pending before each reply, the counter grows by the
number of pending bodies, less one when the run ends in `timeout`. -/
theorem handleAll_pollCount (c : Closure) (hc : truthy c.transactionId = true)
    (os : List QueryOutcome) (s : Component) (hs : s.transactionStatus = some .pending)
    (hseq : ∀ k, k < os.length →
      (handleAll c (os.take k) s).transactionStatus = some .pending) :
    (handleAll c os s).pollCount +
        (if (handleAll c os s).transactionStatus = some .timeout then 1 else 0) =
      s.pollCount + os.countP QueryOutcome.isPending := by
  induction os generalizing s with
  | nil => simp [handleAll, hs]
  | cons o os ih =>
    have h1 : handleAll c (o :: os) s = handleAll c os (checkStatus c o s) := rfl
    have hstep := checkStatus_pending_step c o s hc hs
    rw [h1, List.countP_cons]
    cases os with
    | nil =>
      simp only [handleAll, List.foldl_nil, List.countP_nil, Nat.zero_add]
      simpa using hstep
    | cons o2 os2 =>
      have hs1 : (checkStatus c o s).transactionStatus = some .pending := by
        have := hseq 1 (by simp)
        simpa [handleAll] using this
      have hseq1 : ∀ k, k < (o2 :: os2).length →
          (handleAll c ((o2 :: os2).take k) (checkStatus c o s)).transactionStatus
            = some .pending := by
        intro k hk
        have := hseq (k + 1) (by simp only [List.length_cons] at hk ⊢; omega)
        simpa [handleAll] using this
      have := ih (checkStatus c o s) hs1 hseq1
      rw [this]
      rw [hs1] at hstep
      have hstep2 : (checkStatus c o s).pollCount =
          s.pollCount + (if o.isPending = true then 1 else 0) := by
        simpa using hstep
      rw [hstep2]
      omega


/-- The call `clearInterval(id)` does not look at `transactionStatus`. -/
theorem clearInterval_set_status (id : Nat) (s : Component) (st : Option TxStatus) :
    clearInterval id { s with transactionStatus := st } =
      { clearInterval id s with transactionStatus := st } := by
  unfold clearInterval
  dsimp only
  split <;> [split; skip] <;> rfl

/-- Apart from `transactionStatus` itself, the result of `checkStatus` is the
same whatever `transactionStatus` was. -/
theorem checkStatus_status_independent (c : Closure) (o : QueryOutcome) (s : Component)
    (st : Option TxStatus) :
    { checkStatus c o { s with transactionStatus := st } with transactionStatus := none } =
      { checkStatus c o s with transactionStatus := none } := by
  cases htr : truthy c.transactionId
  · rw [checkStatus_of_not_truthy c o _ htr, checkStatus_of_not_truthy c o _ htr]
  · cases o with
    | failure =>
      rw [checkStatus_failure_eq c _ htr, checkStatus_failure_eq c _ htr,
        clearInterval_set_status]
    | snapshot data =>
      by_cases h1 : data.status = "success"
      · rw [checkStatus_success_eq c _ data htr h1, checkStatus_success_eq c _ data htr h1]
      · by_cases h2 : data.status = "failed"
        · rw [checkStatus_failed_eq c _ data htr h2, checkStatus_failed_eq c _ data htr h2]
        · by_cases h3 : data.status = "pending"
          · by_cases hn : s.pollCount < 12
            · rw [checkStatus_pending_lt_eq c s data htr h3 hn,
                checkStatus_pending_lt_eq c { s with transactionStatus := st } data htr h3 hn]
            · have hn2 : 12 ≤ s.pollCount := Nat.le_of_not_lt hn
              rw [checkStatus_pending_ge_eq c s data htr h3 hn2,
                checkStatus_pending_ge_eq c { s with transactionStatus := st } data htr h3 hn2,
                clearInterval_set_status]
          · rw [checkStatus_other_eq c _ data h1 h2 h3, checkStatus_other_eq c _ data h1 h2 h3]

/-! ## Sample runs are runs -/

/-- The sample run `demoStart` is a run of the component. -/
theorem runEvents_demoStart : runEvents Component.init demoStart = some demoFresh := by
  decide

/-- The sample run `demoLate` is a run of the component. -/
theorem runEvents_demoLate : runEvents Component.init demoLate = some demoLateState := by
  decide

/-! ## The claims about `checkStatus` -/

/-- C1 (counterexample): in the reachable state `demoLateState` the status is
already `failed`, the reply to the first query is still outstanding, and when
it arrives saying `"success"` the function `checkStatus` overwrites status and
message: the late reply is not ignored. -/
theorem late_reply_overwrites_status :
    Reachable demoLateState ∧
    demoLateState.transactionStatus = some .failed ∧
    demoLateState.inFlight = [demoClosure] ∧
    checkStatus demoClosure (.snapshot { status := "success", mpesaReceiptNumber := some "R1" })
        demoLateState ≠ demoLateState ∧
    (checkStatus demoClosure (.snapshot { status := "success", mpesaReceiptNumber := some "R1" })
        demoLateState).transactionStatus = some .success ∧
    (step demoLateState
        (.statusReply 0 (.snapshot { status := "success", mpesaReceiptNumber := some "R1" }))
      ).transactionStatus = some .success :=
  ⟨reachable_of_runEvents demoLate Component.init demoLateState Reachable.init
      runEvents_demoLate,
    by decide, by decide, by decide, by decide, by decide⟩

/-- C1 (amended): the function `checkStatus` does not look at
`transactionStatus`, so a stale or late reply is applied, not ignored. For
every state, whatever its status, and every outcome of the status query:
the state is left unchanged if the `transactionId` captured by `checkStatus`
is not set, which is the case for the `checkStatus` of the current render in
every reachable state whose status is `null`; it is left unchanged if the
body has none of the three statuses; otherwise, with the `transactionId`
set, a failure sets the status `error`, `"success"` sets `success` and the
receipt message, `"failed"` sets `failed`, `"pending"` with `pollCount < 12`
adds one to `pollCount` and leaves the status as it was, `"pending"` with
`pollCount ≥ 12` sets `timeout`; and every field of the result other than
`transactionStatus` is the same whatever `transactionStatus` was before. -/
theorem checkStatus_applies_reply_in_any_status (c : Closure) (s : Component) :
    (truthy c.transactionId = false → ∀ o, checkStatus c o s = s) ∧
    (Reachable s → s.transactionStatus = none →
      ∀ id o, checkStatus { transactionId := s.transactionId, pollInterval := id } o s = s) ∧
    (∀ data, data.status ≠ "success" → data.status ≠ "failed" → data.status ≠ "pending" →
      checkStatus c (.snapshot data) s = s) ∧
    (truthy c.transactionId = true →
      (checkStatus c .failure s).transactionStatus = some .error ∧
      (∀ data, data.status = "success" →
        (checkStatus c (.snapshot data) s).transactionStatus = some .success ∧
        (checkStatus c (.snapshot data) s).message =
          "✅ Payment successful! Receipt: " ++ templateText data.mpesaReceiptNumber) ∧
      (∀ data, data.status = "failed" →
        (checkStatus c (.snapshot data) s).transactionStatus = some .failed) ∧
      (∀ data, data.status = "pending" → s.pollCount < 12 →
        (checkStatus c (.snapshot data) s).transactionStatus = s.transactionStatus ∧
        (checkStatus c (.snapshot data) s).pollCount = s.pollCount + 1) ∧
      (∀ data, data.status = "pending" → 12 ≤ s.pollCount →
        (checkStatus c (.snapshot data) s).transactionStatus = some .timeout)) ∧
    (∀ o st,
      { checkStatus c o { s with transactionStatus := st } with transactionStatus := none } =
        { checkStatus c o s with transactionStatus := none }) := by
  refine ⟨fun hc o => checkStatus_of_not_truthy c o s hc, ?_,
    fun data h1 h2 h3 => checkStatus_other_eq c s data h1 h2 h3, ?_,
    fun o st => checkStatus_status_independent c o s st⟩
  · intro hr hs id o
    apply checkStatus_of_not_truthy
    have := (inv_of_reachable s hr).2.2.1 hs
    simp [this, truthy]
  · intro hc
    refine ⟨?_, ?_, ?_, ?_, ?_⟩
    · simp [checkStatus_failure_eq c s hc]
    · intro data hd; simp [checkStatus_success_eq c s data hc hd]
    · intro data hd; simp [checkStatus_failed_eq c s data hc hd]
    · intro data hd hn; simp [checkStatus_pending_lt_eq c s data hc hd hn]
    · intro data hd hn; simp [checkStatus_pending_ge_eq c s data hc hd hn]

/-- C1 (amended), at the initial state, where nothing was queried, and at the
state of `demoLate`, whose status is `failed`, on a late failure of the first
query: the status becomes `error`. -/
theorem checkStatus_applies_reply_in_any_status_witness :
    checkStatus { transactionId := none, pollInterval := 1 } pendingSnapshot Component.init
      = Component.init ∧
    demoLateState.transactionStatus = some .failed ∧
    (checkStatus demoClosure .failure demoLateState).transactionStatus = some .error :=
  ⟨(checkStatus_applies_reply_in_any_status
      { transactionId := none, pollInterval := 1 } Component.init).1 (by decide) pendingSnapshot,
   by decide,
   ((checkStatus_applies_reply_in_any_status demoClosure demoLateState).2.2.2.1
      (by decide)).1⟩

/-- C3: under status pending, with the query issued for a set `transactionId`,
`checkStatus` follows the transition table: `"success"` gives status `success`,
the message carrying `data.mpesaReceiptNumber`, and `pollCount` unchanged;
`"failed"` gives `failed` with `pollCount` unchanged; `"pending"` with
`pollCount < 12` stays pending with `pollCount + 1`; `"pending"` with
`pollCount ≥ 12` gives `timeout` with `pollCount` unchanged. -/
theorem checkStatus_transition_table (c : Closure) (s : Component) (data : StatusData)
    (hc : truthy c.transactionId = true) (hs : s.transactionStatus = some .pending) :
    (data.status = "success" →
      (checkStatus c (.snapshot data) s).transactionStatus = some .success ∧
      (checkStatus c (.snapshot data) s).message =
        "✅ Payment successful! Receipt: " ++ templateText data.mpesaReceiptNumber ∧
      (∀ r, data.mpesaReceiptNumber = some r →
        (checkStatus c (.snapshot data) s).message = "✅ Payment successful! Receipt: " ++ r) ∧
      (checkStatus c (.snapshot data) s).pollCount = s.pollCount) ∧
    (data.status = "failed" →
      (checkStatus c (.snapshot data) s).transactionStatus = some .failed ∧
      (checkStatus c (.snapshot data) s).pollCount = s.pollCount) ∧
    (data.status = "pending" → s.pollCount < 12 →
      (checkStatus c (.snapshot data) s).transactionStatus = some .pending ∧
      (checkStatus c (.snapshot data) s).pollCount = s.pollCount + 1) ∧
    (data.status = "pending" → 12 ≤ s.pollCount →
      (checkStatus c (.snapshot data) s).transactionStatus = some .timeout ∧
      (checkStatus c (.snapshot data) s).pollCount = s.pollCount) := by
  refine ⟨?_, ?_, ?_, ?_⟩
  · intro hd
    refine ⟨?_, ?_, ?_, ?_⟩
    · simp [checkStatus_success_eq c s data hc hd]
    · simp [checkStatus_success_eq c s data hc hd]
    · intro r hr; simp [checkStatus_success_eq c s data hc hd, hr, templateText]
    · simp [checkStatus_success_eq c s data hc hd]
  · intro hd; simp [checkStatus_failed_eq c s data hc hd]
  · intro hd hn; simp [checkStatus_pending_lt_eq c s data hc hd hn, hs]
  · intro hd hn; simp [checkStatus_pending_ge_eq c s data hc hd hn]

/-- C3, at the first reply of the sample run saying `"success"` with receipt `R1`. -/
theorem checkStatus_transition_table_witness :
    truthy demoClosure.transactionId = true ∧
    demoFresh.transactionStatus = some .pending ∧
    (checkStatus demoClosure (.snapshot { status := "success", mpesaReceiptNumber := some "R1" })
      demoFresh).transactionStatus = some .success ∧
    (checkStatus demoClosure (.snapshot { status := "success", mpesaReceiptNumber := some "R1" })
      demoFresh).message = "✅ Payment successful! Receipt: " ++ "R1" :=
  ⟨by decide, by decide,
   ((checkStatus_transition_table demoClosure demoFresh
      { status := "success", mpesaReceiptNumber := some "R1" } (by decide) (by decide)).1
      (by decide)).1,
   ((checkStatus_transition_table demoClosure demoFresh
      { status := "success", mpesaReceiptNumber := some "R1" } (by decide) (by decide)).1
      (by decide)).2.2.1 "R1" rfl⟩

/-- C8: under status pending, whatever `pollCount` is, a failed status query
makes `checkStatus` set the status to `error` and leave `pollCount` as it
was; the interval of the closure is cleared, after the re-render no interval
is armed, the start condition is false and no tick can fire; and the result
for another `pollCount` differs in `pollCount` only. -/
theorem checkStatus_failure_is_error (c : Closure) (s : Component)
    (hc : truthy c.transactionId = true) (hs : s.transactionStatus = some .pending) :
    (checkStatus c .failure s).transactionStatus = some .error ∧
    (checkStatus c .failure s).pollCount = s.pollCount ∧
    (∀ t, (checkStatus c .failure s).timer = some t → t.pollInterval ≠ c.pollInterval) ∧
    (pollingEffect s (checkStatus c .failure s)).timer = none ∧
    (pollingEffect s (checkStatus c .failure s)).transactionStatus = some .error ∧
    (pollingEffect s (checkStatus c .failure s)).pollCount = s.pollCount ∧
    startCondition (pollingEffect s (checkStatus c .failure s)) = false ∧
    enabled (pollingEffect s (checkStatus c .failure s)) .tick = false ∧
    (∀ n, checkStatus c .failure { s with pollCount := n } =
      { checkStatus c .failure s with pollCount := n }) := by
  have hst : (checkStatus c .failure s).transactionStatus = some .error := by
    simp [checkStatus_failure_eq c s hc]
  have hpc : (checkStatus c .failure s).pollCount = s.pollCount := by
    simp [checkStatus_failure_eq c s hc]
  have hch : s.transactionStatus ≠ (checkStatus c .failure s).transactionStatus := by
    rw [hs, hst]; decide
  have hnp : (checkStatus c .failure s).transactionStatus ≠ some .pending := by
    rw [hst]; decide
  obtain ⟨d1, d2, -, -⟩ := pollingEffect_disarms s _ hch hnp
  obtain ⟨f1, -, -, -, -⟩ := pollingEffect_frame s (checkStatus c .failure s)
  refine ⟨hst, hpc, ?_, d1, by rw [f1, hst], by rw [d2, hpc], ?_, ?_, ?_⟩
  · intro t ht
    rw [checkStatus_failure_eq c s hc] at ht
    exact clearInterval_cleared c.pollInterval s t ht
  · simp [startCondition, f1, hst]
  · simp [enabled, d1]
  · intro n
    rw [checkStatus_failure_eq c s hc, checkStatus_failure_eq c _ hc]
    unfold clearInterval
    dsimp only
    split <;> [split; skip] <;> rfl

/-- C8, at a failure of the first query of the sample run. -/
theorem checkStatus_failure_is_error_witness :
    truthy demoClosure.transactionId = true ∧
    demoFresh.transactionStatus = some .pending ∧
    (checkStatus demoClosure .failure demoFresh).transactionStatus = some .error ∧
    (pollingEffect demoFresh (checkStatus demoClosure .failure demoFresh)).timer = none :=
  ⟨by decide, by decide,
   (checkStatus_failure_is_error demoClosure demoFresh (by decide) (by decide)).1,
   (checkStatus_failure_is_error demoClosure demoFresh (by decide) (by decide)).2.2.2.1⟩


/-- C2 (counterexample): from the freshly started transaction of the sample
run (status pending, `pollCount` 0), after twelve `"pending"` bodies the status
is still pending, not `timeout`; `pollCount` is 12. -/
theorem twelve_pending_still_pending :
    Reachable demoFresh ∧
    demoFresh.transactionStatus = some .pending ∧ demoFresh.pollCount = 0 ∧
    (handleAll demoClosure (List.replicate 12 pendingSnapshot) demoFresh).transactionStatus
      ≠ some .timeout ∧
    (handleAll demoClosure (List.replicate 12 pendingSnapshot) demoFresh).transactionStatus
      = some .pending ∧
    (handleAll demoClosure (List.replicate 12 pendingSnapshot) demoFresh).pollCount = 12 :=
  ⟨reachable_of_runEvents demoStart Component.init demoFresh Reachable.init runEvents_demoStart,
    by decide, by decide, by decide, by decide, by decide⟩

/-- C2 (amended): from a freshly started transaction (status pending,
`pollCount` 0), after exactly 13 consecutive `"pending"` bodies handled by
`checkStatus` the status is `timeout`; after each of the first 12 it was
pending, with `pollCount` equal to the number handled. -/
theorem thirteen_pending_then_timeout (c : Closure) (s : Component) (os : List QueryOutcome)
    (hc : truthy c.transactionId = true) (hs : s.transactionStatus = some .pending)
    (h0 : s.pollCount = 0) (hlen : os.length = 13) (hp : ∀ o ∈ os, o.isPending = true) :
    (handleAll c os s).transactionStatus = some .timeout ∧
    (handleAll c os s).pollCount = 12 ∧
    ∀ k, k ≤ 12 →
      (handleAll c (os.take k) s).transactionStatus = some .pending ∧
      (handleAll c (os.take k) s).pollCount = k := by
  have hk : ∀ k, k ≤ 12 → handleAll c (os.take k) s = { s with pollCount := k } := by
    intro k hk
    have hl : (os.take k).length = k := by
      rw [List.length_take, hlen]; omega
    rw [handleAll_pending_below c hc (os.take k) s
      (fun o ho => hp o (List.mem_of_mem_take ho)) (by rw [hl, h0]; omega), hl, h0, Nat.zero_add]
  have hsplit : os = os.take 12 ++ os.drop 12 := (List.take_append_drop 12 os).symm
  have hd : (os.drop 12).length = 1 := by rw [List.length_drop, hlen]
  obtain ⟨o, ho⟩ := List.length_eq_one.mp hd
  have hom : o ∈ os := by
    have : o ∈ os.drop 12 := by rw [ho]; exact List.mem_singleton_self o
    exact List.mem_of_mem_drop this
  obtain ⟨data, rfl, hdat⟩ := exists_data_of_isPending o (hp o hom)
  have hfin : handleAll c os s =
      checkStatus c (.snapshot data) { s with pollCount := 12 } := by
    rw [hsplit, handleAll_append, hk 12 (Nat.le_refl _), ho]
    rfl
  refine ⟨?_, ?_, ?_⟩
  · rw [hfin, checkStatus_pending_ge_eq c _ data hc hdat (Nat.le_refl _)]
  · rw [hfin, checkStatus_pending_ge_eq c _ data hc hdat (Nat.le_refl _)]
    simp
  · intro k hk12
    rw [hk k hk12]
    exact ⟨hs, rfl⟩

/-- C2 (amended), on the sample run with thirteen `"pending"` bodies. -/
theorem thirteen_pending_then_timeout_witness :
    (handleAll demoClosure (List.replicate 13 pendingSnapshot) demoFresh).transactionStatus
      = some .timeout :=
  (thirteen_pending_then_timeout demoClosure demoFresh (List.replicate 13 pendingSnapshot)
    (by decide) (by decide) (by decide) (by decide) (by decide)).1

/-- C5 (counterexample): in the sample run, thirteen `"pending"` bodies are
each handled under status pending; after twelve of them `pollCount` is 12,
and the thirteenth leaves it at 12, so it grew by 12, not by 13. -/
theorem pending_at_limit_keeps_pollCount :
    (∀ k, k < 13 →
      (handleAll demoClosure (List.replicate k pendingSnapshot) demoFresh).transactionStatus
        = some .pending) ∧
    (handleAll demoClosure (List.replicate 12 pendingSnapshot) demoFresh).pollCount = 12 ∧
    pendingSnapshot.isPending = true ∧
    (checkStatus demoClosure pendingSnapshot
      (handleAll demoClosure (List.replicate 12 pendingSnapshot) demoFresh)).pollCount = 12 ∧
    (handleAll demoClosure (List.replicate 13 pendingSnapshot) demoFresh).pollCount
      ≠ demoFresh.pollCount + 13 := by
  decide

/-- C5 (amended): for every finite sequence of replies handled by
`checkStatus` under status pending, `pollCount` increases by exactly 1 for
each `"pending"` body that finds `pollCount < 12` and is unchanged by every
other reply, the `"pending"` body that finds `pollCount ≥ 12` and gives
`timeout` included; it never decreases; over the sequence it grows by the
number of `"pending"` bodies, less one when the sequence ends in `timeout`. -/
theorem pollCount_counts_pending_below_limit (c : Closure) (s : Component)
    (os : List QueryOutcome) (hc : truthy c.transactionId = true)
    (hs : s.transactionStatus = some .pending)
    (hseq : ∀ k, k < os.length →
      (handleAll c (os.take k) s).transactionStatus = some .pending) :
    (∀ k o, os[k]? = some o →
      (handleAll c (os.take (k + 1)) s).pollCount =
        (handleAll c (os.take k) s).pollCount +
          (if o.isPending = true ∧ (handleAll c (os.take k) s).pollCount < 12 then 1 else 0)) ∧
    (∀ k, (handleAll c (os.take k) s).pollCount ≤ (handleAll c (os.take (k + 1)) s).pollCount) ∧
    (handleAll c os s).pollCount +
        (if (handleAll c os s).transactionStatus = some .timeout then 1 else 0) =
      s.pollCount + os.countP QueryOutcome.isPending := by
  have hstep : ∀ k o, os[k]? = some o →
      (handleAll c (os.take (k + 1)) s).pollCount =
        (handleAll c (os.take k) s).pollCount +
          (if o.isPending = true ∧ (handleAll c (os.take k) s).pollCount < 12
           then 1 else 0) := by
    intro k o hko
    have ht : os.take (k + 1) = os.take k ++ [o] := by
      rw [List.take_succ, hko]; rfl
    rw [ht, handleAll_append]
    have : handleAll c [o] (handleAll c (os.take k) s)
        = checkStatus c o (handleAll c (os.take k) s) := rfl
    rw [this, checkStatus_pollCount]
    simp [hc]
  refine ⟨hstep, ?_, handleAll_pollCount c hc os s hs hseq⟩
  intro k
  cases hko : os[k]? with
  | some o => rw [hstep k o hko]; exact Nat.le_add_right _ _
  | none =>
    have hlen : os.length ≤ k := by simpa using hko
    rw [List.take_of_length_le hlen, List.take_of_length_le (Nat.le_succ_of_le hlen)]

/-- C5 (amended), on two `"pending"` bodies after the start of the sample run. -/
theorem pollCount_counts_pending_below_limit_witness :
    (handleAll demoClosure [pendingSnapshot, pendingSnapshot] demoFresh).pollCount +
        (if (handleAll demoClosure [pendingSnapshot, pendingSnapshot] demoFresh).transactionStatus
            = some .timeout then 1 else 0) =
      demoFresh.pollCount + [pendingSnapshot, pendingSnapshot].countP QueryOutcome.isPending :=
  (pollCount_counts_pending_below_limit demoClosure demoFresh [pendingSnapshot, pendingSnapshot]
    (by decide) (by decide) (by decide)).2.2


/-! ## Validation and the verify request -/

/-- A string is blank after trimming exactly when it is made of white space. -/
theorem jsTrim_eq_empty_iff (str : String) :
    jsTrim str = "" ↔ ∀ ch ∈ str.data, isJsWhiteSpace ch = true := by
  have hmk : ∀ l : List Char, String.mk l = "" ↔ l = [] := by
    intro l
    constructor
    · intro h
      have := congrArg String.data h
      simpa using this
    · intro h; subst h; rfl
  unfold jsTrim
  rw [hmk, List.reverse_eq_nil_iff, List.dropWhile_eq_nil_iff]
  constructor
  · intro h
    have hnil : str.data.dropWhile isJsWhiteSpace = [] := by
      cases hd : str.data.dropWhile isJsWhiteSpace with
      | nil => rfl
      | cons a l =>
        have ha1 : isJsWhiteSpace a = true := h a (by rw [hd]; simp)
        have ha2 := List.head_dropWhile_not isJsWhiteSpace str.data (by rw [hd]; simp)
        simp only [hd, List.head_cons] at ha2
        rw [ha1] at ha2
        cases ha2
    exact List.dropWhile_eq_nil_iff.mp hnil
  · intro h
    rw [List.dropWhile_eq_nil_iff.mpr h]
    intro x hx
    simp at hx

/-- C9: `validateFields` accepts exactly when both fields are non-empty after
trimming, that is when each holds a character that is not white space; the
`errors` object it sets has an entry for exactly the blank fields (plate `""`
with contact `"0700000000"`: an entry for the plate only); and on a rejected
form `handleVerify` returns having changed `errors` only: no request to the
Verification Service, and status, `transactionId`, message, vehicle and
`loading` as before, also after the re-render. -/
theorem validateFields_accepts_iff_not_blank (s : Component) :
    ((validateFields s).2 = true ↔
      jsTrim s.licensePlate ≠ "" ∧ jsTrim s.phoneNumber ≠ "") ∧
    ((validateFields s).2 = true ↔
      (∃ ch ∈ s.licensePlate.data, isJsWhiteSpace ch = false) ∧
      (∃ ch ∈ s.phoneNumber.data, isJsWhiteSpace ch = false)) ∧
    ((validateFields s).1.errors.licensePlate.isSome = true ↔ jsTrim s.licensePlate = "") ∧
    ((validateFields s).1.errors.phoneNumber.isSome = true ↔ jsTrim s.phoneNumber = "") ∧
    (s.licensePlate = "" → s.phoneNumber = "0700000000" →
      (validateFields s).2 = false ∧
      (validateFields s).1.errors =
        { licensePlate := some "License plate cannot be blank.", phoneNumber := none }) ∧
    ((validateFields s).2 = false →
      handleVerifyStart s = { s with errors := (validateFields s).1.errors } ∧
      step s .clickVerify = { s with errors := (validateFields s).1.errors } ∧
      (handleVerifyStart s).pendingVerify = s.pendingVerify ∧
      (handleVerifyStart s).transactionStatus = s.transactionStatus ∧
      (handleVerifyStart s).transactionId = s.transactionId ∧
      (handleVerifyStart s).message = s.message ∧
      (handleVerifyStart s).vehicle = s.vehicle ∧
      (handleVerifyStart s).loading = s.loading) := by
  have hacc : (validateFields s).2 = true ↔
      jsTrim s.licensePlate ≠ "" ∧ jsTrim s.phoneNumber ≠ "" := by
    unfold validateFields
    by_cases h1 : jsTrim s.licensePlate = "" <;> by_cases h2 : jsTrim s.phoneNumber = "" <;>
      simp [h1, h2]
  refine ⟨hacc, ?_, ?_, ?_, ?_, ?_⟩
  · rw [hacc]
    simp only [ne_eq, jsTrim_eq_empty_iff, not_forall, Bool.not_eq_true, exists_prop]
  · unfold validateFields
    by_cases h1 : jsTrim s.licensePlate = "" <;> simp [h1]
  · unfold validateFields
    by_cases h2 : jsTrim s.phoneNumber = "" <;> simp [h2]
  · intro h1 h2
    have e1 : jsTrim s.licensePlate = "" := by rw [h1]; decide
    have e2 : jsTrim s.phoneNumber ≠ "" := by rw [h2]; decide
    unfold validateFields
    simp [e1, e2]
  · intro hv
    have hh := handleVerifyStart_invalid s hv
    refine ⟨hh, ?_, ?_, ?_, ?_, ?_, ?_, ?_⟩
    · unfold step
      simp only [handle]
      rw [hh]
      exact pollingEffect_same s _ rfl rfl
    all_goals rw [hh]

/-- C9, at the form with an empty plate and contact `0700000000`. -/
theorem validateFields_accepts_iff_not_blank_witness :
    (validateFields { Component.init with phoneNumber := "0700000000" }).1.errors =
      { licensePlate := some "License plate cannot be blank.", phoneNumber := none } ∧
    (handleVerifyStart { Component.init with phoneNumber := "0700000000" }).pendingVerify = none :=
  ⟨((validateFields_accepts_iff_not_blank
      { Component.init with phoneNumber := "0700000000" }).2.2.2.2.1 rfl rfl).2,
   ((validateFields_accepts_iff_not_blank
      { Component.init with phoneNumber := "0700000000" }).2.2.2.2.2 (by decide)).2.2.1⟩

/-- C10 (counterexample): on the filled form, a reply that does not find the
vehicle and whose `message` is the empty string leaves the component showing
the fixed text, not the service's message; so does a reply with no `message`. -/
theorem not_found_empty_message_shows_fixed_text :
    canStartNewTransaction demoFilled = true ∧
    (validateFields demoFilled).2 = true ∧
    demoNotFound.message = some "" ∧
    (handleVerify (.reply demoNotFound) demoFilled).message
      = "Vehicle not found. Please register." ∧
    some (handleVerify (.reply demoNotFound) demoFilled).message ≠ demoNotFound.message ∧
    (handleVerify (.reply { demoNotFound with message := none }) demoFilled).message
      = "Vehicle not found. Please register." := by
  decide

/-- C10 (amended): for every valid form on which the button is enabled and
every reply that does not find the vehicle (`response.ok && data.registered`
false), after `handleVerify` the status is `null`, `transactionId` is `null`,
no interval is armed, no status query was issued, and the message is the
service's `message` field verbatim when that field is a non-empty string,
and the fixed text `Vehicle not found. Please register.` when it is missing
or empty. -/
theorem handleVerify_not_found (s : Component) (data : VerifyData)
    (hcan : canStartNewTransaction s = true) (hv : (validateFields s).2 = true)
    (hnf : (data.ok && data.registered) = false) :
    enabled (step s .clickVerify) (.verifyReply (.reply data)) = true ∧
    (handleVerify (.reply data) s).transactionStatus = none ∧
    (handleVerify (.reply data) s).transactionId = none ∧
    (handleVerify (.reply data) s).timer = none ∧
    startCondition (handleVerify (.reply data) s) = false ∧
    (handleVerify (.reply data) s).queriesIssued = s.queriesIssued ∧
    (handleVerify (.reply data) s).inFlight = s.inFlight ∧
    (handleVerify (.reply data) s).loading = false ∧
    (handleVerify (.reply data) s).message =
      orElseText data.message "Vehicle not found. Please register." ∧
    (∀ m, data.message = some m → m ≠ "" → (handleVerify (.reply data) s).message = m) ∧
    (data.message = none ∨ data.message = some "" →
      (handleVerify (.reply data) s).message = "Vehicle not found. Please register.") := by
  have hnp : s.transactionStatus ≠ some .pending := by
    simp only [canStartNewTransaction, Bool.and_eq_true, decide_eq_true_eq] at hcan
    exact hcan.1.2
  have h1 : step s .clickVerify =
      { s with
        errors := (validateFields s).1.errors,
        loading := true, message := "", vehicle := none,
        transactionStatus := some .pending, transactionId := none,
        pendingVerify := some { licensePlate := s.licensePlate, phoneNumber := s.phoneNumber },
        timer := none } := by
    unfold step
    simp only [handle]
    rw [handleVerifyStart_valid s hv]
    simp [pollingEffect, hnp, startCondition, truthy]
  have h2 : handleVerify (.reply data) s =
      { s with
        errors := (validateFields s).1.errors,
        loading := false,
        message := orElseText data.message "Vehicle not found. Please register.",
        vehicle := none, transactionStatus := none, transactionId := none,
        pendingVerify := none, timer := none } := by
    unfold handleVerify
    rw [h1]
    unfold step
    simp [handle, handleVerifyResume, hnf, pollingEffect, startCondition, truthy]
  refine ⟨?_, ?_, ?_, ?_, ?_, ?_, ?_, ?_, ?_, ?_, ?_⟩
  · rw [h1]; rfl
  · rw [h2]
  · rw [h2]
  · rw [h2]
  · rw [h2]; rfl
  · rw [h2]
  · rw [h2]
  · rw [h2]
  · rw [h2]
  · intro m hm hne
    rw [h2]
    simp [orElseText, hm, hne]
  · intro hm
    rw [h2]
    rcases hm with hm | hm <;> simp [orElseText, hm]

/-- C10 (amended), at the filled form and a reply with message `No such vehicle`. -/
theorem handleVerify_not_found_witness :
    (handleVerify
      (.reply { ok := true, registered := false, vehicle := none, transactionId := none,
                message := some "No such vehicle" }) demoFilled).message = "No such vehicle" ∧
    (handleVerify
      (.reply { ok := true, registered := false, vehicle := none, transactionId := none,
                message := some "No such vehicle" }) demoFilled).transactionStatus = none :=
  ⟨(handleVerify_not_found demoFilled
      { ok := true, registered := false, vehicle := none, transactionId := none,
        message := some "No such vehicle" } (by decide) (by decide) (by decide)).2.2.2.2.2.2.2.2.2.1
      "No such vehicle" rfl (by decide),
   (handleVerify_not_found demoFilled
      { ok := true, registered := false, vehicle := none, transactionId := none,
        message := some "No such vehicle" } (by decide) (by decide) (by decide)).2.1⟩


/-! ## Gating and polling over the reachable states -/

/-- A handler leaves the timer alone or clears it. -/
theorem handle_timer (s : Component) (e : Event) :
    (handle s e).timer = s.timer ∨ (handle s e).timer = none := by
  cases e with
  | editPlate v => exact Or.inl rfl
  | editPhone v => exact Or.inl rfl
  | clickVerify =>
    simp only [handle]
    cases hv : (validateFields s).2
    · rw [handleVerifyStart_invalid s hv]; exact Or.inl rfl
    · rw [handleVerifyStart_valid s hv]; exact Or.inl rfl
  | verifyReply o =>
    left
    cases o with
    | failure => rfl
    | reply data =>
      simp only [handle, handleVerifyResume]
      split <;> rfl
  | tick =>
    left
    simp only [handle]
    split
    · unfold checkStatusIssue; split <;> rfl
    · rfl
  | statusReply i o =>
    simp only [handle]
    split
    · exact checkStatus_timer _ o _
    · exact Or.inl rfl

/-- A handler takes no timer id. -/
theorem handle_nextTimer (s : Component) (e : Event) :
    (handle s e).nextTimer = s.nextTimer := by
  cases e with
  | editPlate v => rfl
  | editPhone v => rfl
  | clickVerify =>
    simp only [handle]
    cases hv : (validateFields s).2
    · rw [handleVerifyStart_invalid s hv]
    · rw [handleVerifyStart_valid s hv]
  | verifyReply o =>
    cases o with
    | failure => rfl
    | reply data =>
      simp only [handle, handleVerifyResume]
      split <;> rfl
  | tick =>
    simp only [handle]
    split
    · unfold checkStatusIssue; split <;> rfl
    · rfl
  | statusReply i o =>
    simp only [handle]
    split
    · exact checkStatus_nextTimer _ o _
    · rfl

/-- C4: in every reachable state, a new verification attempt is rejected
(`canStartNewTransaction` false, the button disabled) when the status is
pending, and accepted (`canStartNewTransaction` true once `loading` is
over) when the status is `null`, `success`, `failed`, `timeout` or `error`;
every step in which the effect starts polling leaves `pollCount` at 0,
whatever it was before; and the reply that finds the vehicle, with a
`transactionId`, under status pending is such a step. -/
theorem canStartNewTransaction_iff_not_pending (s : Component) (hr : Reachable s) :
    (s.transactionStatus = some .pending →
      canStartNewTransaction s = false ∧ enabled s .clickVerify = false) ∧
    (s.transactionStatus ≠ some .pending → s.loading = false →
      canStartNewTransaction s = true) ∧
    (∀ e, enabled s e = true → (step s e).nextTimer ≠ s.nextTimer →
      (step s e).pollCount = 0 ∧ (step s e).transactionStatus = some .pending ∧
      (step s e).timer.isSome = true) ∧
    (∀ data, enabled s (.verifyReply (.reply data)) = true →
      (data.ok && data.registered) = true → truthy data.transactionId = true →
      s.transactionStatus = some .pending →
      (step s (.verifyReply (.reply data))).nextTimer ≠ s.nextTimer ∧
      (step s (.verifyReply (.reply data))).pollCount = 0 ∧
      (step s (.verifyReply (.reply data))).timer =
        some { transactionId := data.transactionId, pollInterval := s.nextTimer }) := by
  obtain ⟨i1, i2, i3, -⟩ := inv_of_reachable s hr
  refine ⟨?_, ?_, ?_, ?_⟩
  · intro hp
    simp [canStartNewTransaction, enabled, hp]
  · intro hnp hl
    cases hst : s.transactionStatus with
    | none =>
      have htid := i3 hst
      simp [canStartNewTransaction, hl, hst, htid, truthy]
    | some st =>
      cases st with
      | pending => exact absurd hst hnp
      | success => simp [canStartNewTransaction, hl, hst, includesStatus, terminalStatuses]
      | failed => simp [canStartNewTransaction, hl, hst, includesStatus, terminalStatuses]
      | timeout => simp [canStartNewTransaction, hl, hst, includesStatus, terminalStatuses]
      | error => simp [canStartNewTransaction, hl, hst, includesStatus, terminalStatuses]
  · intro e _ hne
    unfold step at hne ⊢
    rw [← handle_nextTimer s e] at hne
    obtain ⟨h0, hsc, ht⟩ := pollingEffect_arms s (handle s e) hne
    refine ⟨h0, ?_, ht⟩
    rw [(pollingEffect_frame s (handle s e)).1]
    simp only [startCondition, Bool.and_eq_true, decide_eq_true_eq] at hsc
    exact hsc.2
  · intro data he hf htr hs
    have hl : s.loading = true := i2 (by simpa [enabled] using he)
    have htid : s.transactionId = none := (i1 hl).1
    have hne : ¬ (none = data.transactionId) := by
      intro h
      rw [← h] at htr
      simp [truthy] at htr
    have hst : step s (.verifyReply (.reply data)) =
        { s with
          vehicle := data.vehicle, transactionId := data.transactionId,
          message := "Please check your phone to complete the M-Pesa payment.",
          loading := false, pendingVerify := none, pollCount := 0,
          inFlight := s.inFlight ++
            [{ transactionId := data.transactionId, pollInterval := s.nextTimer }],
          queriesIssued := s.queriesIssued + 1,
          timer := some { transactionId := data.transactionId, pollInterval := s.nextTimer },
          nextTimer := s.nextTimer + 1 } := by
      simp [step, handle, handleVerifyResume, hf, pollingEffect, htid, hne, startCondition,
        htr, hs, checkStatusIssue]
    rw [hst]
    exact ⟨by simp, rfl, rfl⟩

/-- C4, at the state of the sample run in which polling has just started. -/
theorem canStartNewTransaction_iff_not_pending_witness :
    canStartNewTransaction demoFresh = false ∧ canStartNewTransaction demoLateState = true :=
  ⟨((canStartNewTransaction_iff_not_pending demoFresh
      (reachable_of_runEvents demoStart Component.init demoFresh Reachable.init
        runEvents_demoStart)).1 (by decide)).1,
   (canStartNewTransaction_iff_not_pending demoLateState
      (reachable_of_runEvents demoLate Component.init demoLateState Reachable.init
        runEvents_demoLate)).2.1 (by decide) (by decide)⟩

/-- C6: when polling is armed (`transactionId` set, status pending) and the
reply to a status query is handled, a resulting terminal status leaves no
interval armed after the re-render, the start condition false, no tick
possible and no further query issued; and in every reachable state an armed
interval implies a set `transactionId` and status pending. -/
theorem polling_armed_only_while_pending (s : Component) :
    (∀ i o, s.timer.isSome = true → truthy s.transactionId = true →
      s.transactionStatus = some .pending → enabled s (.statusReply i o) = true →
      isTerminal (step s (.statusReply i o)).transactionStatus = true →
        (step s (.statusReply i o)).timer = none ∧
        startCondition (step s (.statusReply i o)) = false ∧
        enabled (step s (.statusReply i o)) .tick = false ∧
        (step s (.statusReply i o)).queriesIssued = s.queriesIssued) ∧
    (Reachable s → s.timer.isSome = true →
      truthy s.transactionId = true ∧ s.transactionStatus = some .pending) := by
  refine ⟨?_, fun hr => (inv_of_reachable s hr).2.2.2⟩
  intro i o _ _ hs _ hterm
  unfold step at hterm ⊢
  have f1 := (pollingEffect_frame s (handle s (.statusReply i o))).1
  rw [f1] at hterm
  have hnp := ne_pending_of_isTerminal _ hterm
  have hch : s.transactionStatus ≠ (handle s (.statusReply i o)).transactionStatus := by
    rw [hs]; exact fun h => hnp h.symm
  obtain ⟨d1, -, -, d4⟩ := pollingEffect_disarms s _ hch hnp
  have hq : (handle s (.statusReply i o)).queriesIssued = s.queriesIssued := by
    simp only [handle]
    split
    · exact (checkStatus_frame _ o _).2.2.2.2
    · rfl
  refine ⟨d1, ?_, ?_, by rw [d4, hq]⟩
  · simp only [startCondition, f1]
    simp [hnp]
  · simp [enabled, d1]

/-- C6, at a `"failed"` reply to the first query of the sample run. -/
theorem polling_armed_only_while_pending_witness :
    (step demoFresh (.statusReply 0 (.snapshot { status := "failed", mpesaReceiptNumber := none }))
      ).timer = none ∧
    (truthy demoFresh.transactionId = true ∧ demoFresh.transactionStatus = some .pending) :=
  ⟨((polling_armed_only_while_pending demoFresh).1 0
      (.snapshot { status := "failed", mpesaReceiptNumber := none })
      (by decide) (by decide) (by decide) (by decide) (by decide)).1,
   (polling_armed_only_while_pending demoFresh).2
      (reachable_of_runEvents demoStart Component.init demoFresh Reachable.init
        runEvents_demoStart) (by decide)⟩


/-! ## Polling runs -/

/-- A declared reply other than a `"pending"` one below the limit gives a
terminal status, and `timeout` when it is a `"pending"` one. -/
theorem checkStatus_declared_terminal (c : Closure) (o : QueryOutcome) (y : Component)
    (hc : truthy c.transactionId = true) (hd : o.declared = true)
    (hno : ¬ (o.isPending = true ∧ y.pollCount < 12)) :
    isTerminal (checkStatus c o y).transactionStatus = true ∧
    (o.isPending = true → (checkStatus c o y).transactionStatus = some .timeout) := by
  cases o with
  | failure =>
    simp [checkStatus_failure_eq c _ hc, isTerminal, includesStatus, terminalStatuses,
      QueryOutcome.isPending]
  | snapshot data =>
    by_cases h1 : data.status = "success"
    · simp [checkStatus_success_eq c _ data hc h1, isTerminal, includesStatus,
        terminalStatuses, QueryOutcome.isPending, h1]
    · by_cases h2 : data.status = "failed"
      · simp [checkStatus_failed_eq c _ data hc h2, isTerminal, includesStatus,
          terminalStatuses, QueryOutcome.isPending, h2]
      · have h3 : data.status = "pending" := by
          simpa [QueryOutcome.declared, h1, h2] using hd
        have hge : 12 ≤ y.pollCount := by
          apply Nat.le_of_not_lt
          intro hlt
          exact hno ⟨by simp [QueryOutcome.isPending, h3], hlt⟩
        simp [checkStatus_pending_ge_eq c y data hc h3 hge, isTerminal,
          includesStatus, terminalStatuses]

/-- A `"pending"` reply is a declared one. -/
theorem declared_of_isPending (o : QueryOutcome) (h : o.isPending = true) :
    o.declared = true := by
  obtain ⟨data, rfl, hd⟩ := exists_data_of_isPending o h
  simp [QueryOutcome.declared, hd]

/-- A tick of an armed interval issues one query and changes nothing else. -/
theorem step_tick_eq (s : Component) (c : Closure) (ht : s.timer = some c)
    (hc : truthy c.transactionId = true) :
    step s .tick =
      { s with inFlight := s.inFlight ++ [c], queriesIssued := s.queriesIssued + 1 } := by
  simp only [step, handle, ht]
  rw [pollingEffect_same]
  · simp [checkStatusIssue, hc, ht]
  · unfold checkStatusIssue; split <;> rfl
  · unfold checkStatusIssue; split <;> rfl

/-- Under a status that is not pending the effect at most clears the timer. -/
theorem pollingEffect_not_pending (prev x : Component)
    (h : x.transactionStatus ≠ some .pending) :
    pollingEffect prev x = x ∨ pollingEffect prev x = { x with timer := none } := by
  unfold pollingEffect
  split
  · exact Or.inl rfl
  · right
    simp [startCondition, h]

/-- The step of a reply to the query in flight at position `i`. -/
theorem step_reply_eq (s : Component) (i : Nat) (o : QueryOutcome) (x : Closure)
    (hget : s.inFlight.get? i = some x) :
    step s (.statusReply i o) =
      pollingEffect s (checkStatus x o { s with inFlight := s.inFlight.eraseIdx i }) := by
  simp only [step, handle, hget]

/-- A reply to an enabled event has a query in flight. -/
theorem exists_get_of_enabled (s : Component) (i : Nat) (o : QueryOutcome)
    (he : enabled s (.statusReply i o) = true) :
    ∃ x, s.inFlight.get? i = some x ∧ x ∈ s.inFlight := by
  have hlt : i < s.inFlight.length := by simpa [enabled] using he
  refine ⟨s.inFlight.get ⟨i, hlt⟩, List.get?_eq_get hlt, List.get_mem _ _ _⟩

/-- What the step of a reply does, for a query issued for a set
`transactionId` and a declared outcome, from a state that is pending or
terminal with no interval armed. -/
theorem reply_step_facts (s : Component) (i : Nat) (o : QueryOutcome) (x : Closure)
    (hget : s.inFlight.get? i = some x) (hx : truthy x.transactionId = true)
    (hd : o.declared = true)
    (hst : s.transactionStatus = some .pending ∨
      (isTerminal s.transactionStatus = true ∧ s.timer = none))
    (hpc : s.pollCount ≤ 12) :
    (step s (.statusReply i o)).inFlight = s.inFlight.eraseIdx i ∧
    (step s (.statusReply i o)).queriesIssued = s.queriesIssued ∧
    (step s (.statusReply i o)).pollCount ≤ 12 ∧
    ((s.transactionStatus = some .pending ∧ o.isPending = true ∧ s.pollCount < 12 ∧
        (step s (.statusReply i o)).transactionStatus = some .pending ∧
        (step s (.statusReply i o)).pollCount = s.pollCount + 1 ∧
        (step s (.statusReply i o)).timer = s.timer) ∨
      (isTerminal (step s (.statusReply i o)).transactionStatus = true ∧
        (step s (.statusReply i o)).timer = none ∧
        (s.transactionStatus = some .pending →
          (step s (.statusReply i o)).pollCount = s.pollCount ∧
          (o.isPending = true →
            (step s (.statusReply i o)).transactionStatus = some .timeout ∧
            s.pollCount = 12)) ∧
        (s.transactionStatus = some .timeout → o.isPending = true → s.pollCount = 12 →
          (step s (.statusReply i o)).transactionStatus = some .timeout ∧
          (step s (.statusReply i o)).pollCount = 12))) := by
  rw [step_reply_eq s i o x hget]
  generalize hs0 : ({ s with inFlight := s.inFlight.eraseIdx i } : Component) = s0
  have e1 : s0.inFlight = s.inFlight.eraseIdx i := by rw [← hs0]
  have e2 : s0.queriesIssued = s.queriesIssued := by rw [← hs0]
  have e3 : s0.pollCount = s.pollCount := by rw [← hs0]
  have e4 : s0.transactionStatus = s.transactionStatus := by rw [← hs0]
  have e5 : s0.transactionId = s.transactionId := by rw [← hs0]
  have e6 : s0.timer = s.timer := by rw [← hs0]
  obtain ⟨f1, -, -, f4, f5⟩ := checkStatus_frame x o s0
  have hpcnt := checkStatus_pollCount x o s0
  by_cases hcount : s.transactionStatus = some .pending ∧ o.isPending = true ∧ s.pollCount < 12
  · obtain ⟨hs, hop, hlt⟩ := hcount
    obtain ⟨data, rfl, hdat⟩ := exists_data_of_isPending o hop
    have heq := checkStatus_pending_lt_eq x s0 data hx hdat (by rw [e3]; exact hlt)
    rw [heq, pollingEffect_same s _ (by simp only [e5]) (by simp only [e4])]
    refine ⟨e1, e2, by simp only [e3]; omega, Or.inl ⟨hs, hop, hlt, ?_, ?_, e6⟩⟩
    · simp only [e4, hs]
    · simp only [e3]
  · -- the result is terminal
    have hterm : isTerminal (checkStatus x o s0).transactionStatus = true ∧
        (s.transactionStatus = some .pending →
          (checkStatus x o s0).pollCount = s.pollCount ∧
          (o.isPending = true →
            (checkStatus x o s0).transactionStatus = some .timeout ∧ s.pollCount = 12)) := by
      rcases hst with hs | ⟨hs, -⟩
      · have hno : ¬ (o.isPending = true ∧ s0.pollCount < 12) := by
          rw [e3]; exact fun h => hcount ⟨hs, h.1, h.2⟩
        obtain ⟨t1, t2⟩ := checkStatus_declared_terminal x o s0 hx hd hno
        refine ⟨t1, fun _ => ⟨?_, fun hop => ⟨t2 hop, ?_⟩⟩⟩
        · rw [hpcnt, e3]
          have : ¬ (truthy x.transactionId = true ∧ o.isPending = true ∧ s0.pollCount < 12) :=
            fun h => hno h.2
          simp only [e3] at this
          simp only [this, if_false, Nat.add_zero]
        · have : ¬ s.pollCount < 12 := fun h => hcount ⟨hs, hop, h⟩
          omega
      · refine ⟨?_, fun hp => ?_⟩
        · rcases checkStatus_status x o s0 with h | h
          · rw [h, e4]; exact hs
          · exact h
        · rw [hp] at hs
          simp [isTerminal, includesStatus, terminalStatuses] at hs
    have hnp := ne_pending_of_isTerminal _ hterm.1
    have htimer : (pollingEffect s (checkStatus x o s0)).timer = none := by
      rcases hst with hs | ⟨-, ht⟩
      · have hch : s.transactionStatus ≠ (checkStatus x o s0).transactionStatus :=
          fun h => hnp (h.symm.trans hs)
        exact (pollingEffect_disarms s _ hch hnp).1
      · rcases pollingEffect_not_pending s _ hnp with h | h
        · rw [h]
          rcases checkStatus_timer x o s0 with h2 | h2
          · rw [h2, e6, ht]
          · exact h2
        · rw [h]
    have hfield : (pollingEffect s (checkStatus x o s0)).inFlight = (checkStatus x o s0).inFlight ∧
        (pollingEffect s (checkStatus x o s0)).queriesIssued = (checkStatus x o s0).queriesIssued ∧
        (pollingEffect s (checkStatus x o s0)).pollCount = (checkStatus x o s0).pollCount ∧
        (pollingEffect s (checkStatus x o s0)).transactionStatus
          = (checkStatus x o s0).transactionStatus := by
      rcases pollingEffect_not_pending s _ hnp with h | h <;> rw [h] <;> exact ⟨rfl, rfl, rfl, rfl⟩
    obtain ⟨g1, g2, g3, g4⟩ := hfield
    have hle : (checkStatus x o s0).pollCount ≤ 12 := by
      rw [hpcnt, e3]
      split
      · rename_i h; omega
      · omega
    refine ⟨by rw [g1, f4, e1], by rw [g2, f5, e2], by rw [g3]; exact hle, Or.inr ⟨?_, htimer, ?_, ?_⟩⟩
    · rw [g4]; exact hterm.1
    · intro hp
      rw [g3, g4]
      exact hterm.2 hp
    · intro hto hop h12
      obtain ⟨data, rfl, hdat⟩ := exists_data_of_isPending o hop
      have heq := checkStatus_pending_ge_eq x s0 data hx hdat (by rw [e3, h12])
      rw [g3, g4, heq]
      exact ⟨rfl, by simp only [clearInterval_pollCount, e3, h12]⟩


/-- Erasing one element lowers a count by one at most. -/
theorem count_le_count_eraseIdx_add_one (c : Closure) (l : List Closure) (i : Nat) :
    l.count c ≤ (l.eraseIdx i).count c + 1 := by
  induction l generalizing i with
  | nil => simp
  | cons a l ih =>
    cases i with
    | zero =>
      simp only [List.eraseIdx_cons_zero, List.count_cons]
      split <;> omega
    | succ i =>
      simp only [List.eraseIdx_cons_succ, List.count_cons]
      have := ih i
      omega

/-- A query issued by `checkStatus` was issued for a set `transactionId`. -/
theorem mem_checkStatusIssue (c x : Closure) (s : Component)
    (h : x ∈ (checkStatusIssue c s).inFlight) :
    x ∈ s.inFlight ∨ truthy x.transactionId = true := by
  unfold checkStatusIssue at h
  split at h
  · exact Or.inl h
  · rename_i hc
    rcases List.mem_append.mp h with h1 | h1
    · exact Or.inl h1
    · right
      rw [List.mem_singleton.mp h1]
      simpa using hc

/-- A handler puts in flight only queries issued for a set `transactionId`. -/
theorem mem_handle_inFlight (s : Component) (e : Event) (x : Closure)
    (h : x ∈ (handle s e).inFlight) : x ∈ s.inFlight ∨ truthy x.transactionId = true := by
  cases e with
  | editPlate v => exact Or.inl h
  | editPhone v => exact Or.inl h
  | clickVerify =>
    simp only [handle] at h
    cases hv : (validateFields s).2
    · rw [handleVerifyStart_invalid s hv] at h; exact Or.inl h
    · rw [handleVerifyStart_valid s hv] at h; exact Or.inl h
  | verifyReply o =>
    left
    cases o with
    | failure => exact h
    | reply data =>
      simp only [handle, handleVerifyResume] at h
      split at h <;> exact h
  | tick =>
    simp only [handle] at h
    split at h
    · exact mem_checkStatusIssue _ x s h
    · exact Or.inl h
  | statusReply i o =>
    left
    simp only [handle] at h
    split at h
    · rw [(checkStatus_frame _ o _).2.2.2.1] at h
      exact List.mem_of_mem_eraseIdx h
    · exact h

/-- The effect puts in flight only a query issued for a set `transactionId`. -/
theorem mem_pollingEffect_inFlight (prev s : Component) (x : Closure)
    (h : x ∈ (pollingEffect prev s).inFlight) :
    x ∈ s.inFlight ∨ truthy x.transactionId = true := by
  unfold pollingEffect at h
  split at h
  · exact Or.inl h
  · dsimp only at h
    split at h
    · have h2 : x ∈ (checkStatusIssue
          { transactionId := s.transactionId, pollInterval := s.nextTimer }
          { s with timer := none, pollCount := 0 }).inFlight := h
      rcases mem_checkStatusIssue _ x _ h2 with h3 | h3
      · exact Or.inl h3
      · exact Or.inr h3
    · exact Or.inl h

/-- In every reachable state the queries in flight were issued for a set
`transactionId`. -/
theorem inFlight_truthy_of_reachable (s : Component) (hr : Reachable s) :
    ∀ x ∈ s.inFlight, truthy x.transactionId = true := by
  induction hr with
  | init => intro x hx; cases hx
  | step e _ _ ih =>
    intro x hx
    rcases mem_pollingEffect_inFlight _ _ x hx with h | h
    · rcases mem_handle_inFlight _ e x h with h2 | h2
      · exact ih x h2
      · exact h2
    · exact h

/-- A reachable attached state satisfies the polling invariant. -/
theorem pollInv_of_attached (c : Closure) (s : Component) (hr : Reachable s)
    (ha : Attached c s) : PollInv c s := by
  obtain ⟨ht, hc, hs, hp, -⟩ := ha
  refine ⟨inFlight_truthy_of_reachable s hr, ?_, hc, Or.inl hs, by omega⟩
  intro d hd
  rw [ht] at hd
  exact (Option.some.inj hd).symm

/-- A tick is enabled only for the armed interval of `c`, under status pending. -/
theorem tick_enabled_facts (c : Closure) (s : Component) (hp : PollInv c s)
    (hen : enabled s .tick = true) :
    s.timer = some c ∧ s.transactionStatus = some .pending := by
  obtain ⟨-, hd, -, hst, -⟩ := hp
  have hsome : s.timer.isSome = true := hen
  obtain ⟨d, hdd⟩ := Option.isSome_iff_exists.mp hsome
  have := hd d hdd
  subst this
  refine ⟨hdd, ?_⟩
  rcases hst with h | ⟨-, h⟩
  · exact h
  · rw [h] at hdd; cases hdd

/-- Every enabled polling event keeps the polling invariant. -/
theorem pollInv_step (c : Closure) (s : Component) (e : Event) (hp : PollInv c s)
    (he : pollEvent e = true) (hen : enabled s e = true) : PollInv c (step s e) := by
  cases e with
  | editPlate v => simp [pollEvent] at he
  | editPhone v => simp [pollEvent] at he
  | clickVerify => simp [pollEvent] at he
  | verifyReply o => simp [pollEvent] at he
  | tick =>
    obtain ⟨ht, hs⟩ := tick_enabled_facts c s hp hen
    obtain ⟨hin, hd, hc, -, hpc⟩ := hp
    rw [step_tick_eq s c ht hc]
    refine ⟨?_, hd, hc, Or.inl hs, hpc⟩
    intro x hx
    rcases List.mem_append.mp hx with h | h
    · exact hin x h
    · rw [List.mem_singleton.mp h]; exact hc
  | statusReply i o =>
    obtain ⟨x, hget, hmem⟩ := exists_get_of_enabled s i o hen
    obtain ⟨hin, hd, hc, hst, hpc⟩ := hp
    obtain ⟨f1, -, f3, f4⟩ := reply_step_facts s i o x hget (hin x hmem) he hst hpc
    refine ⟨?_, ?_, hc, ?_, f3⟩
    · intro y hy
      rw [f1] at hy
      exact hin y (List.mem_of_mem_eraseIdx hy)
    · intro d hdd
      rcases f4 with ⟨-, -, -, -, -, h⟩ | ⟨-, h, -⟩
      · rw [h] at hdd; exact hd d hdd
      · rw [h] at hdd; cases hdd
    · rcases f4 with ⟨-, -, -, h, -, -⟩ | ⟨h1, h2, -⟩
      · exact Or.inl h
      · exact Or.inr ⟨h1, h2⟩

/-- Along a run of polling events every reply handled under status pending
is counted: while the status is pending, `pollCount` is at least the number
of replies handled. -/
theorem run_replies_counted (c : Closure) (es : List Event) :
    ∀ (s t : Component) (n : Nat), PollInv c s →
      (s.transactionStatus = some .pending → n ≤ s.pollCount) →
      (∀ e ∈ es, pollEvent e = true) → runEvents s es = some t →
      PollInv c t ∧ (t.transactionStatus = some .pending → n + countReplies es ≤ t.pollCount) := by
  induction es with
  | nil =>
    intro s t n hp hn _ hrun
    simp only [runEvents, Option.some.injEq] at hrun
    subst hrun
    exact ⟨hp, by simpa [countReplies] using hn⟩
  | cons e es ih =>
    intro s t n hp hn hev hrun
    have he := hev e (List.mem_cons_self _ _)
    simp only [runEvents] at hrun
    split at hrun
    · rename_i hen
      have hp1 := pollInv_step c s e hp he hen
      have hcnt : countReplies (e :: es) = countReplies es + (if e.isReply = true then 1 else 0) := by
        simp [countReplies, List.countP_cons]
      have hn1 : (step s e).transactionStatus = some .pending →
          n + (if e.isReply = true then 1 else 0) ≤ (step s e).pollCount := by
        cases e with
        | editPlate v => simp [pollEvent] at he
        | editPhone v => simp [pollEvent] at he
        | clickVerify => simp [pollEvent] at he
        | verifyReply o => simp [pollEvent] at he
        | tick =>
          obtain ⟨ht, hs⟩ := tick_enabled_facts c s hp hen
          rw [step_tick_eq s c ht hp.2.2.1]
          intro _
          simpa [Event.isReply] using hn hs
        | statusReply i o =>
          obtain ⟨x, hget, hmem⟩ := exists_get_of_enabled s i o hen
          obtain ⟨-, -, -, f4⟩ :=
            reply_step_facts s i o x hget (hp.1 x hmem) he hp.2.2.2.1 hp.2.2.2.2
          intro hpend
          rcases f4 with ⟨hs, -, -, -, h5, -⟩ | ⟨h1, -, -⟩
          · rw [h5]
            have := hn hs
            simp only [Event.isReply, if_true]
            omega
          · exact absurd hpend (ne_pending_of_isTerminal _ h1)
      obtain ⟨r1, r2⟩ := ih (step s e) t _ hp1 hn1
        (fun e he => hev e (List.mem_cons_of_mem _ he)) hrun
      refine ⟨r1, fun hpend => ?_⟩
      have := r2 hpend
      rw [hcnt]
      omega
    · cases hrun


/-- A first-in-first-out polling event is a polling event. -/
theorem pollEvent_of_fifoEvent (e : Event) (h : fifoEvent e = true) : pollEvent e = true := by
  cases e with
  | statusReply i o =>
    simp only [fifoEvent, Bool.and_eq_true] at h
    exact h.2
  | tick => rfl
  | editPlate v => simp [fifoEvent] at h
  | editPhone v => simp [fifoEvent] at h
  | clickVerify => simp [fifoEvent] at h
  | verifyReply o => simp [fifoEvent] at h

/-- A first-in-first-out event with a pending reply is a first-in-first-out event. -/
theorem fifoEvent_of_pendingFifoEvent (e : Event) (h : pendingFifoEvent e = true) :
    fifoEvent e = true := by
  cases e with
  | statusReply i o =>
    simp only [pendingFifoEvent, Bool.and_eq_true] at h
    simp only [fifoEvent, Bool.and_eq_true]
    exact ⟨h.1, declared_of_isPending o h.2⟩
  | tick => rfl
  | editPlate v => simp [pendingFifoEvent] at h
  | editPhone v => simp [pendingFifoEvent] at h
  | clickVerify => simp [pendingFifoEvent] at h
  | verifyReply o => simp [pendingFifoEvent] at h

/-- Along a run of polling events in which every tick finds no query of `c`
in flight, each tick issues one query and at most `12 - k` ticks occur, `k`
being the number of ticks before the run. -/
theorem run_prompt_ticks (c : Closure) (es : List Event) :
    ∀ (s t : Component) (k : Nat), PollInv c s → k ≤ 12 →
      (s.transactionStatus = some .pending → k + 1 ≤ s.pollCount + s.inFlight.count c) →
      (∀ e ∈ es, pollEvent e = true) → promptRun c s es = true →
      runEvents s es = some t →
      t.queriesIssued = s.queriesIssued + countTicks es ∧ k + countTicks es ≤ 12 := by
  induction es with
  | nil =>
    intro s t k _ hk _ _ _ hrun
    simp only [runEvents, Option.some.injEq] at hrun
    subst hrun
    simpa [countTicks] using hk
  | cons e es ih =>
    intro s t k hp hk hsum hev hprompt hrun
    have he := hev e (List.mem_cons_self _ _)
    simp only [runEvents] at hrun
    simp only [promptRun, Bool.and_eq_true, Bool.or_eq_true, Bool.not_eq_true',
      decide_eq_true_eq] at hprompt
    obtain ⟨hpr1, hpr2⟩ := hprompt
    split at hrun
    · rename_i hen
      have hp1 := pollInv_step c s e hp he hen
      have hcnt : countTicks (e :: es) = countTicks es + (if e.isTick = true then 1 else 0) := by
        simp [countTicks, List.countP_cons]
      have hstep : (step s e).queriesIssued =
            s.queriesIssued + (if e.isTick = true then 1 else 0) ∧
          k + (if e.isTick = true then 1 else 0) ≤ 12 ∧
          ((step s e).transactionStatus = some .pending →
            k + (if e.isTick = true then 1 else 0) + 1 ≤
              (step s e).pollCount + (step s e).inFlight.count c) := by
        cases e with
        | editPlate v => simp [pollEvent] at he
        | editPhone v => simp [pollEvent] at he
        | clickVerify => simp [pollEvent] at he
        | verifyReply o => simp [pollEvent] at he
        | tick =>
          obtain ⟨ht, hs⟩ := tick_enabled_facts c s hp hen
          have hzero : s.inFlight.count c = 0 := by
            rcases hpr1 with h | h
            · simp [Event.isTick] at h
            · exact h
          have h1 := hsum hs
          have h2 := hp.2.2.2.2
          rw [step_tick_eq s c ht hp.2.2.1]
          simp only [Event.isTick, if_true, List.count_append, List.count_singleton_self]
          exact ⟨trivial, by omega, fun _ => by omega⟩
        | statusReply i o =>
          obtain ⟨x, hget, hmem⟩ := exists_get_of_enabled s i o hen
          obtain ⟨f1, f2, -, f4⟩ :=
            reply_step_facts s i o x hget (hp.1 x hmem) he hp.2.2.2.1 hp.2.2.2.2
          simp only [Event.isTick, Bool.false_eq_true, if_false, Nat.add_zero]
          refine ⟨f2, hk, fun hpend => ?_⟩
          rcases f4 with ⟨hs, -, -, -, h5, -⟩ | ⟨h1, -, -⟩
          · rw [h5, f1]
            have := hsum hs
            have := count_le_count_eraseIdx_add_one c s.inFlight i
            omega
          · exact absurd hpend (ne_pending_of_isTerminal _ h1)
      obtain ⟨s1, s2, s3⟩ := hstep
      obtain ⟨r1, r2⟩ := ih (step s e) t _ hp1 s2 s3
        (fun e he => hev e (List.mem_cons_of_mem _ he)) hpr2 hrun
      rw [hcnt, r1, s1]
      omega
    · cases hrun

/-- Along a first-in-first-out run of ticks and `"pending"` replies, the
status is pending with `pollCount` the number of replies up to 12 of them,
and `timeout` from the thirteenth on. -/
theorem run_pending_fifo (c : Closure) (es : List Event) :
    ∀ (s t : Component) (r : Nat), PollInv c s →
      ((r ≤ 12 ∧ s.transactionStatus = some .pending ∧ s.pollCount = r) ∨
        (13 ≤ r ∧ s.transactionStatus = some .timeout ∧ s.pollCount = 12)) →
      (∀ e ∈ es, pendingFifoEvent e = true) → runEvents s es = some t →
      ((r + countReplies es ≤ 12 ∧ t.transactionStatus = some .pending ∧
          t.pollCount = r + countReplies es) ∨
        (13 ≤ r + countReplies es ∧ t.transactionStatus = some .timeout ∧ t.pollCount = 12)) := by
  induction es with
  | nil =>
    intro s t r _ hr _ hrun
    simp only [runEvents, Option.some.injEq] at hrun
    subst hrun
    simpa [countReplies] using hr
  | cons e es ih =>
    intro s t r hp hr hev hrun
    have he := hev e (List.mem_cons_self _ _)
    have hpe := pollEvent_of_fifoEvent e (fifoEvent_of_pendingFifoEvent e he)
    simp only [runEvents] at hrun
    split at hrun
    · rename_i hen
      have hp1 := pollInv_step c s e hp hpe hen
      have hcnt : countReplies (e :: es) = countReplies es + (if e.isReply = true then 1 else 0) := by
        simp [countReplies, List.countP_cons]
      have hstep :
          (r + (if e.isReply = true then 1 else 0) ≤ 12 ∧
            (step s e).transactionStatus = some .pending ∧
            (step s e).pollCount = r + (if e.isReply = true then 1 else 0)) ∨
          (13 ≤ r + (if e.isReply = true then 1 else 0) ∧
            (step s e).transactionStatus = some .timeout ∧ (step s e).pollCount = 12) := by
        cases e with
        | editPlate v => simp [pollEvent] at hpe
        | editPhone v => simp [pollEvent] at hpe
        | clickVerify => simp [pollEvent] at hpe
        | verifyReply o => simp [pollEvent] at hpe
        | tick =>
          obtain ⟨ht, hs⟩ := tick_enabled_facts c s hp hen
          rw [step_tick_eq s c ht hp.2.2.1]
          simpa [Event.isReply] using hr
        | statusReply i o =>
          have hop : o.isPending = true := by
            simp only [pendingFifoEvent, Bool.and_eq_true] at he
            exact he.2
          obtain ⟨x, hget, hmem⟩ := exists_get_of_enabled s i o hen
          obtain ⟨-, -, -, f4⟩ :=
            reply_step_facts s i o x hget (hp.1 x hmem) hpe hp.2.2.2.1 hp.2.2.2.2
          simp only [Event.isReply, if_true]
          rcases hr with ⟨hr12, hs, hpc⟩ | ⟨hr13, hs, hpc⟩
          · rcases f4 with ⟨-, -, hlt, h4, h5, -⟩ | ⟨-, -, h3, -⟩
            · left
              exact ⟨by omega, h4, by rw [h5, hpc]⟩
            · right
              obtain ⟨g1, g2⟩ := h3 hs
              obtain ⟨g3, g4⟩ := g2 hop
              exact ⟨by omega, g3, by rw [g1, g4]⟩
          · rcases f4 with ⟨h1, -⟩ | ⟨-, -, -, h4⟩
            · rw [hs] at h1; cases h1
            · right
              obtain ⟨g1, g2⟩ := h4 hs hop hpc
              exact ⟨by omega, g1, g2⟩
      have := ih (step s e) t _ hp1 hstep
        (fun e he => hev e (List.mem_cons_of_mem _ he)) hrun
      rw [hcnt]
      rcases this with ⟨a1, a2, a3⟩ | ⟨a1, a2, a3⟩
      · left; exact ⟨by omega, a2, by rw [a3]; omega⟩
      · right; exact ⟨by omega, a2, a3⟩
    · cases hrun

/-- Along a first-in-first-out run the queries in flight are the queries in
flight before, followed by one query of `c` for each tick, less the oldest
ones, one for each reply. -/
theorem run_fifo_queue (c : Closure) (es : List Event) :
    ∀ (s t : Component), PollInv c s →
      (∀ e ∈ es, fifoEvent e = true) → runEvents s es = some t →
      t.inFlight = (s.inFlight ++ List.replicate (countTicks es) c).drop (countReplies es) := by
  induction es with
  | nil =>
    intro s t _ _ hrun
    simp only [runEvents, Option.some.injEq] at hrun
    subst hrun
    simp [countTicks, countReplies]
  | cons e es ih =>
    intro s t hp hev hrun
    have he := hev e (List.mem_cons_self _ _)
    have hpe := pollEvent_of_fifoEvent e he
    simp only [runEvents] at hrun
    split at hrun
    · rename_i hen
      have hp1 := pollInv_step c s e hp hpe hen
      have := ih (step s e) t hp1 (fun e he => hev e (List.mem_cons_of_mem _ he)) hrun
      rw [this]
      cases e with
      | editPlate v => simp [pollEvent] at hpe
      | editPhone v => simp [pollEvent] at hpe
      | clickVerify => simp [pollEvent] at hpe
      | verifyReply o => simp [pollEvent] at hpe
      | tick =>
        obtain ⟨ht, -⟩ := tick_enabled_facts c s hp hen
        rw [step_tick_eq s c ht hp.2.2.1]
        simp [countTicks, countReplies, List.countP_cons, Event.isTick, Event.isReply,
          List.replicate_succ]
      | statusReply i o =>
        have hi : i = 0 := by
          simp only [fifoEvent, Bool.and_eq_true, decide_eq_true_eq] at he
          exact he.1
        subst hi
        obtain ⟨x, hget, hmem⟩ := exists_get_of_enabled s 0 o hen
        obtain ⟨f1, -, -, -⟩ :=
          reply_step_facts s 0 o x hget (hp.1 x hmem) hpe hp.2.2.2.1 hp.2.2.2.2
        rw [f1]
        cases hl : s.inFlight with
        | nil => rw [hl] at hmem; cases hmem
        | cons a l =>
          simp [countTicks, countReplies, List.countP_cons, Event.isTick, Event.isReply]
    · cases hrun


/-- The step of the reply that finds the vehicle, with a `transactionId`,
under status pending: the effect starts polling. -/
theorem step_found_reply_eq (s : Component) (data : VerifyData) (hr : Reachable s)
    (he : enabled s (.verifyReply (.reply data)) = true)
    (hf : (data.ok && data.registered) = true) (htr : truthy data.transactionId = true)
    (hs : s.transactionStatus = some .pending) :
    step s (.verifyReply (.reply data)) =
      { s with
        vehicle := data.vehicle, transactionId := data.transactionId,
        message := "Please check your phone to complete the M-Pesa payment.",
        loading := false, pendingVerify := none, pollCount := 0,
        inFlight := s.inFlight ++
          [{ transactionId := data.transactionId, pollInterval := s.nextTimer }],
        queriesIssued := s.queriesIssued + 1,
        timer := some { transactionId := data.transactionId, pollInterval := s.nextTimer },
        nextTimer := s.nextTimer + 1 } := by
  obtain ⟨i1, i2, -, -⟩ := inv_of_reachable s hr
  have hl : s.loading = true := i2 (by simpa [enabled] using he)
  have htid : s.transactionId = none := (i1 hl).1
  have hne : ¬ (none = data.transactionId) := by
    intro h
    rw [← h] at htr
    simp [truthy] at htr
  simp [step, handle, handleVerifyResume, hf, pollingEffect, htid, hne, startCondition,
    htr, hs, checkStatusIssue]

/-- The state after the reply that finds the vehicle, with a
`transactionId`, under status pending is reachable and attached. -/
theorem attached_of_found_reply (s : Component) (data : VerifyData) (hr : Reachable s)
    (he : enabled s (.verifyReply (.reply data)) = true)
    (hf : (data.ok && data.registered) = true) (htr : truthy data.transactionId = true)
    (hs : s.transactionStatus = some .pending) :
    Reachable (step s (.verifyReply (.reply data))) ∧
    Attached { transactionId := data.transactionId, pollInterval := s.nextTimer }
      (step s (.verifyReply (.reply data))) := by
  refine ⟨Reachable.step _ hr he, ?_⟩
  rw [step_found_reply_eq s data hr he hf htr hs]
  exact ⟨rfl, htr, hs, rfl, s.inFlight, rfl⟩

/-! ## The claim about the bound on polling -/

/-- C7 (counterexample): in the sample run `demoSlow` no reply arrives
during the first 65 seconds; the interval has fired thirteen times, fourteen
queries have been issued for the one transaction and all are in flight, and
the status is pending; it is still pending after the reply to the thirteenth
query, the one issued at 60 s, is handled first. And in the run `demoStale`
of the second transaction of `demoSecond`, started while a query of the first
is in flight, every reply says `"pending"` and is handled in order and before
the next tick, yet the status is `timeout` after the reply to the twelfth
query of the transaction, issued by the eleventh tick. -/
theorem slow_replies_fourteen_queries :
    runEvents Component.init demoSlow = some demoSlowState ∧
    Component.init.queriesIssued = 0 ∧
    demoSlowState.queriesIssued = 14 ∧
    demoSlowState.inFlight.length = 14 ∧
    demoSlowState.transactionStatus = some .pending ∧
    enabled demoSlowState (.statusReply 12 pendingSnapshot) = true ∧
    (step demoSlowState (.statusReply 12 pendingSnapshot)).transactionStatus = some .pending ∧
    isTerminal (step demoSlowState (.statusReply 12 pendingSnapshot)).transactionStatus
      = false ∧
    runEvents Component.init demoSecond = some demoSecondState ∧
    demoSecondState.inFlight = [demoClosure, demoClosure2] ∧
    runEvents demoSecondState demoStale = some demoStaleState ∧
    countTicks demoStale = 11 ∧
    demoStaleState.queriesIssued = demoSecondState.queriesIssued + 11 ∧
    demoStaleState.inFlight = [] ∧
    demoStaleState.transactionStatus = some .timeout := by
  decide

/-- C7 (amended): from a reachable state in which polling has just started
(the query issued at once in flight, behind the queries of earlier
transactions still in flight), along every run of interval ticks and replies
with declared outcomes:
(a) if the replies are handled in the order of the queries — the queries in
flight are then the queries issued, less as many of the oldest as replies
were handled — the status is terminal and no interval is armed once the reply
to the 13th query of the transaction, the one issued `12 * 5000` ms after the
start, has been handled, that is once the replies number the queries in
flight at the start plus 12;
(b) if every tick finds no query of the transaction in flight, that is each
reply is handled before the next tick, every tick issues one query and at
most 13 queries are issued for the transaction, the first one included;
(c) if the replies are handled in order, no query of an earlier transaction
is in flight at the start and every reply says `"pending"`, the status is
pending with `pollCount` the number of replies while at most 12 were handled,
and `timeout` once the 13th was. -/
theorem polling_ends_on_thirteenth_query (c : Closure) (s t : Component) (es : List Event)
    (hr : Reachable s) (ha : Attached c s) (hrun : runEvents s es = some t) :
    ((∀ e ∈ es, fifoEvent e = true) →
      t.inFlight = (s.inFlight ++ List.replicate (countTicks es) c).drop (countReplies es) ∧
      (s.inFlight.length + 12 ≤ countReplies es →
        isTerminal t.transactionStatus = true ∧ t.timer = none ∧ enabled t .tick = false)) ∧
    ((∀ e ∈ es, pollEvent e = true) → promptRun c s es = true →
      t.queriesIssued = s.queriesIssued + countTicks es ∧ 1 + countTicks es ≤ 13) ∧
    ((∀ e ∈ es, pendingFifoEvent e = true) → s.inFlight = [c] →
      (countReplies es ≤ 12 →
        t.transactionStatus = some .pending ∧ t.pollCount = countReplies es) ∧
      (13 ≤ countReplies es → t.transactionStatus = some .timeout)) ∧
    issueTimeMs 13 = POLL_LIMIT * POLL_INTERVAL_MS ∧ issueTimeMs 13 = 60000 := by
  have hp := pollInv_of_attached c s hr ha
  obtain ⟨-, -, hs, hpc, earlier, hin⟩ := ha
  refine ⟨?_, ?_, ?_, by decide, by decide⟩
  · intro hev
    have hpe : ∀ e ∈ es, pollEvent e = true := fun e he => pollEvent_of_fifoEvent e (hev e he)
    refine ⟨run_fifo_queue c es s t hp hev hrun, ?_⟩
    intro hcount
    obtain ⟨⟨-, -, -, hst, hle⟩, hcnt⟩ :=
      run_replies_counted c es s t 0 hp (fun _ => Nat.zero_le _) hpe hrun
    have hlen : 1 ≤ s.inFlight.length := by rw [hin]; simp
    rcases hst with h | ⟨h1, h2⟩
    · have := hcnt h
      omega
    · exact ⟨h1, h2, by simp [enabled, h2]⟩
  · intro hev hprompt
    have hone : 1 ≤ s.inFlight.count c := by
      rw [hin, List.count_append, List.count_singleton_self]
      omega
    obtain ⟨r1, r2⟩ := run_prompt_ticks c es s t 0 hp (by omega) (fun _ => by omega)
      hev hprompt hrun
    exact ⟨r1, by omega⟩
  · intro hev _
    have := run_pending_fifo c es s t 0 hp (Or.inl ⟨by omega, hs, hpc⟩) hev hrun
    simp only [Nat.zero_add] at this
    refine ⟨fun h12 => ?_, fun h13 => ?_⟩
    · rcases this with ⟨-, a2, a3⟩ | ⟨a1, -, -⟩
      · exact ⟨a2, a3⟩
      · omega
    · rcases this with ⟨a1, -, -⟩ | ⟨-, a2, -⟩
      · omega
      · exact a2

/-- C7 (amended), on the sample run with thirteen prompt `"pending"` replies,
and on the second transaction of `demoSecond`, started while a query of the
first is in flight, with twelve ticks before the fourteen replies. -/
theorem polling_ends_on_thirteenth_query_witness :
    Attached demoClosure demoFresh ∧
    runEvents demoFresh demoPrompt = some demoPromptState ∧
    demoPromptState.transactionStatus = some .timeout ∧
    1 + countTicks demoPrompt ≤ 13 ∧
    Attached demoClosure2 demoSecondState ∧
    runEvents demoSecondState demoSlowFifo = some demoSlowFifoState ∧
    isTerminal demoSlowFifoState.transactionStatus = true :=
  ⟨⟨rfl, by decide, by decide, by decide, [], by decide⟩,
   by decide,
   ((polling_ends_on_thirteenth_query demoClosure demoFresh demoPromptState demoPrompt
      (reachable_of_runEvents demoStart Component.init demoFresh Reachable.init
        runEvents_demoStart)
      ⟨rfl, by decide, by decide, by decide, [], by decide⟩ (by decide)).2.2.1
      (by decide) (by decide)).2 (by decide),
   ((polling_ends_on_thirteenth_query demoClosure demoFresh demoPromptState demoPrompt
      (reachable_of_runEvents demoStart Component.init demoFresh Reachable.init
        runEvents_demoStart)
      ⟨rfl, by decide, by decide, by decide, [], by decide⟩ (by decide)).2.1
      (by decide) (by decide)).2,
   ⟨by decide, by decide, by decide, by decide, [demoClosure], by decide⟩,
   by decide,
   (((polling_ends_on_thirteenth_query demoClosure2 demoSecondState demoSlowFifoState
      demoSlowFifo
      (reachable_of_runEvents demoSecond Component.init demoSecondState Reachable.init
        (by decide))
      ⟨by decide, by decide, by decide, by decide, [demoClosure], by decide⟩ (by decide)).1
      (by decide)).2 (by decide)).1⟩


end ExpressPap
